import Mathlib

/-!
# THOR socket hider (`src/sockethider.c`): embedding and verified properties

Bytes are natural numbers (character codes).  Kernel library routines the file
calls (`sprintf`, `strnstr`, `kstrtoint`, `ntohs`, `list_add`, ...) are modelled
after their Linux implementations.  A result of `none` stands for an execution
that reads memory outside the object it was given (undefined behaviour).
-/

namespace Thor

/-! ## Data model -/

/-- The protocols of `enum socket_type`. -/
inductive socket_type where
  | tcp4
  | tcp6
  | udp4
  | udp6
  deriving DecidableEq, Repr

/-- Modelled from the spec: the header `sockethider.h` declaring `enum socket_type`
is not part of the sources; the spec lists the protocols as tcp4, tcp6, udp4, udp6 and
C numbers enumerators from 0 in declaration order. -/
def socket_type.code : socket_type → Int
  | .tcp4 => 0
  | .tcp6 => 1
  | .udp4 => 2
  | .udp6 => 3

/-- A node of the hiding list: `struct _socket_list` without its link field. -/
structure _socket_list where
  port : Int
  type : socket_type
  deriving DecidableEq, Repr

/-- Constant `#define TMPSZ_TCP4 150`. -/
def TMPSZ_TCP4 : Nat := 150
/-- Constant `#define TMPSZ_TCP6 176`. -/
def TMPSZ_TCP6 : Nat := 176
/-- Constant `#define TMPSZ_UDP4 128`. -/
def TMPSZ_UDP4 : Nat := 128
/-- Constant `#define TMPSZ_UDP6 168`. -/
def TMPSZ_UDP6 : Nat := 168

/-- The part of `struct seq_file` the interceptors touch: the buffer memory `buf`
(its length is the kernel's `size`) and the fill level `count`, which the kernel
keeps at most `size`. -/
structure seq_file where
  buf : List Nat
  count : Nat
  count_le : count ≤ buf.length
  deriving DecidableEq

/-- The handlers this file installs. -/
inductive Handler where
  | thor_tcp4_seq_show
  | thor_tcp6_seq_show
  | thor_udp4_seq_show
  | thor_udp6_seq_show
  | thor_bind
  deriving DecidableEq, Repr

/-- What `thor_bind` reads of `struct sockaddr`: the family and the two bytes of the
port field (`sin_port` and `sin6_port` lie at the same offset) in memory order. -/
structure sockaddr where
  sa_family : Nat
  port_b0 : Nat
  port_b1 : Nat
  deriving DecidableEq, Repr

/-- What `thor_bind` reads of `struct socket`: `sock->sk->sk_type`. -/
structure socket where
  sk_type : Nat
  deriving DecidableEq, Repr

/-- Calls to functions outside this file, in the order they are made. -/
inductive Event where
  | hijack (f : Nat) (h : Handler)
  | unhijack (f : Nat)
  | seq_show (f : Nat) (v : Nat)
  | sys_bind (fd : Int) (sa : sockaddr) (addrlen : Int)
  | list_add (port : Int) (type : socket_type)
  | list_del (port : Int) (type : socket_type)
  deriving DecidableEq, Repr

/-- The file's global variables (`socket_list` in iteration order, the five
function-pointer slots with 0 for NULL), the redirections currently installed by the
hijack module, and the trace of external calls. -/
structure State where
  socket_list : List _socket_list
  tcp4_seq_show : Nat
  tcp6_seq_show : Nat
  udp4_seq_show : Nat
  udp6_seq_show : Nat
  sys_bind : Nat
  hijacked : List (Nat × Handler)
  trace : List Event
  deriving DecidableEq

/-! ## Library routines -/

/-- One uppercase hexadecimal digit as a character code. -/
def hexdigit (d : Nat) : Nat := if d < 10 then 48 + d else 55 + d

/-- The call `sprintf(port, ":%04X", p)`: a colon, then the `int` read as a 32-bit unsigned
number in uppercase hexadecimal, zero-padded to at least four digits. -/
def sprintf_port (p : Int) : List Nat :=
  let u := (p % 4294967296).toNat
  let hi := [u / 268435456 % 16, u / 16777216 % 16, u / 1048576 % 16, u / 65536 % 16]
  let lo := [u / 4096 % 16, u / 256 % 16, u / 16 % 16, u % 16]
  58 :: ((hi.dropWhile (fun d => d == 0)) ++ lo).map hexdigit

/-- The loop of the kernel's `strnstr` for a non-empty needle:
`while (len >= l2) { len--; if (!memcmp(s1, s2, l2)) return s1; s1++; }`.
`s1` is the memory from the pointer to the end of its object, `off` the distance
walked so far.  `some (some i)`: found at offset `i`; `some none`: NULL;
`none`: `memcmp` would read past the object. -/
def strnstr_loop (s2 : List Nat) : Nat → List Nat → Nat → Option (Option Nat)
  | 0, _, _ => some none
  | len + 1, s1, off =>
    if len + 1 < s2.length then some none
    else if s1.length < s2.length then none
    else if s1.take s2.length = s2 then some (some off)
    else strnstr_loop s2 len s1.tail (off + 1)

/-- The kernel's `strnstr(s1, s2, len)`. -/
def strnstr (s1 s2 : List Nat) (len : Nat) : Option (Option Nat) :=
  if s2.length = 0 then some (some 0) else strnstr_loop s2 len s1 0

/-- Modelled from the spec: the hijack module (`hijack.h`) is not part of the sources;
`hijack(function, new_function)` attaches a call redirection to `function`. -/
def hijack (f : Nat) (h : Handler) (st : State) : State :=
  { st with
    hijacked := (f, h) :: st.hijacked.filter (fun x => x.1 != f)
    trace := st.trace ++ [Event.hijack f h] }

/-- Modelled from the spec: the hijack module (`hijack.h`) is not part of the sources;
`unhijack(function)` detaches the call redirection of `function`. -/
def unhijack (f : Nat) (st : State) : State :=
  { st with
    hijacked := st.hijacked.filter (fun x => x.1 != f)
    trace := st.trace ++ [Event.unhijack f] }

/-! ## Enumeration interceptors -/

/-- The memory `seq->buf + seq->count - width`, `width` bytes long; `none` when it
starts before the buffer. -/
def window (width : Nat) (seq : seq_file) : Option (List Nat) :=
  if width ≤ seq.count then some ((seq.buf.drop (seq.count - width)).take width) else none

/-- The assignment `seq->count -= width`. -/
def seq_truncate (width : Nat) (seq : seq_file) : seq_file :=
  { seq with
    count := seq.count - width
    count_le := Nat.le_trans (Nat.sub_le _ _) seq.count_le }

/-- The `list_for_each_entry` loop shared by the four interceptors, for protocol `ty`
and window width `width`. -/
def hide_port (ty : socket_type) (width : Nat) : List _socket_list → seq_file → Option seq_file
  | [], seq => some seq
  | tmp :: rest, seq =>
    if tmp.type = ty then
      match window width seq with
      | none => none
      | some w =>
        match strnstr w (sprintf_port tmp.port) width with
        | none => none
        | some (some _) => some (seq_truncate width seq)
        | some none => hide_port ty width rest seq
    else hide_port ty width rest seq

/-- Function `thor_tcp4_seq_show(seq, v)`; `orig` is the function the slot points to. -/
def thor_tcp4_seq_show (orig : seq_file → Nat → seq_file × Int) (st : State)
    (seq : seq_file) (v : Nat) : Option (State × seq_file × Int) :=
  let st1 := unhijack st.tcp4_seq_show st
  let r := orig seq v
  let st2 := { st1 with trace := st1.trace ++ [Event.seq_show st1.tcp4_seq_show v] }
  let st3 := hijack st2.tcp4_seq_show Handler.thor_tcp4_seq_show st2
  match hide_port socket_type.tcp4 TMPSZ_TCP4 st3.socket_list r.1 with
  | none => none
  | some seq' => some (st3, seq', r.2)

/-- Function `thor_tcp6_seq_show(seq, v)`. -/
def thor_tcp6_seq_show (orig : seq_file → Nat → seq_file × Int) (st : State)
    (seq : seq_file) (v : Nat) : Option (State × seq_file × Int) :=
  let st1 := unhijack st.tcp6_seq_show st
  let r := orig seq v
  let st2 := { st1 with trace := st1.trace ++ [Event.seq_show st1.tcp6_seq_show v] }
  let st3 := hijack st2.tcp6_seq_show Handler.thor_tcp6_seq_show st2
  match hide_port socket_type.tcp6 TMPSZ_TCP6 st3.socket_list r.1 with
  | none => none
  | some seq' => some (st3, seq', r.2)

/-- Function `thor_udp4_seq_show(seq, v)`. -/
def thor_udp4_seq_show (orig : seq_file → Nat → seq_file × Int) (st : State)
    (seq : seq_file) (v : Nat) : Option (State × seq_file × Int) :=
  let st1 := unhijack st.udp4_seq_show st
  let r := orig seq v
  let st2 := { st1 with trace := st1.trace ++ [Event.seq_show st1.udp4_seq_show v] }
  let st3 := hijack st2.udp4_seq_show Handler.thor_udp4_seq_show st2
  match hide_port socket_type.udp4 TMPSZ_UDP4 st3.socket_list r.1 with
  | none => none
  | some seq' => some (st3, seq', r.2)

/-- Function `thor_udp6_seq_show(seq, v)`. -/
def thor_udp6_seq_show (orig : seq_file → Nat → seq_file × Int) (st : State)
    (seq : seq_file) (v : Nat) : Option (State × seq_file × Int) :=
  let st1 := unhijack st.udp6_seq_show st
  let r := orig seq v
  let st2 := { st1 with trace := st1.trace ++ [Event.seq_show st1.udp6_seq_show v] }
  let st3 := hijack st2.udp6_seq_show Handler.thor_udp6_seq_show st2
  match hide_port socket_type.udp6 TMPSZ_UDP6 st3.socket_list r.1 with
  | none => none
  | some seq' => some (st3, seq', r.2)

/-- The window width of the interceptor of a protocol. -/
def width_of : socket_type → Nat
  | .tcp4 => TMPSZ_TCP4
  | .tcp6 => TMPSZ_TCP6
  | .udp4 => TMPSZ_UDP4
  | .udp6 => TMPSZ_UDP6

/-- The interceptor of a protocol. -/
def interceptor : socket_type → (seq_file → Nat → seq_file × Int) → State →
    seq_file → Nat → Option (State × seq_file × Int)
  | .tcp4 => thor_tcp4_seq_show
  | .tcp6 => thor_tcp6_seq_show
  | .udp4 => thor_udp4_seq_show
  | .udp6 => thor_udp6_seq_show

/-! ## Registry -/

/-- Function `add_to_socket_list(port, type)`: `list_add` links the new node right behind the
list head, so it is the first one visited afterwards (`kmalloc` is taken to succeed). -/
def add_to_socket_list (port : Int) (type : socket_type) (st : State) : State :=
  { st with
    socket_list := { port := port, type := type } :: st.socket_list
    trace := st.trace ++ [Event.list_add port type] }

/-- The `list_for_each_safe` loop of `remove_from_socket_list`: the nodes kept and the
`list_del` calls made.  The test is the source's `port == tmp->port && type == tmp->port`. -/
def remove_loop (port : Int) (type : socket_type) :
    List _socket_list → List _socket_list × List Event
  | [] => ([], [])
  | tmp :: rest =>
    let r := remove_loop port type rest
    if port = tmp.port ∧ type.code = tmp.port then
      (r.1, Event.list_del tmp.port tmp.type :: r.2)
    else (tmp :: r.1, r.2)

/-- Function `remove_from_socket_list(port, type)`. -/
def remove_from_socket_list (port : Int) (type : socket_type) (st : State) : State :=
  let r := remove_loop port type st.socket_list
  { st with socket_list := r.1, trace := st.trace ++ r.2 }

/-- The `list_for_each_safe` loop of `clear_socket_list`. -/
def clear_loop : List _socket_list → List _socket_list × List Event
  | [] => ([], [])
  | tmp :: rest =>
    let r := clear_loop rest
    (r.1, Event.list_del tmp.port tmp.type :: r.2)

/-- Function `clear_socket_list()`. -/
def clear_socket_list (st : State) : State :=
  let r := clear_loop st.socket_list
  { st with socket_list := r.1, trace := st.trace ++ r.2 }

/-! ## Bind interceptor -/

/-- Linux `AF_INET`. -/
def AF_INET : Nat := 2
/-- Linux `AF_INET6`. -/
def AF_INET6 : Nat := 10
/-- Linux `SOCK_STREAM`. -/
def SOCK_STREAM : Nat := 1
/-- Linux `SOCK_DGRAM`. -/
def SOCK_DGRAM : Nat := 2

/-- The value `ntohs` gives for the port field: the first byte in memory is the high byte. -/
def ntohs (sa : sockaddr) : Int := ((sa.port_b0 % 256 * 256 + sa.port_b1 % 256 : Nat) : Int)

/-- What the rest of the kernel answers: the calling process, the hidden-pid predicate
of pidhider, `sockfd_lookup`, the original `sys_bind`, the reads `vfs_read` delivers
from `/proc/<pid>/net/udp` (`none`: `filp_open` gave NULL), and the content of the
uninitialised `port` variable of `hide_sockets_by_pid`. -/
structure Kernel where
  current_pid : Nat
  is_pid_hidden : Nat → Bool
  sockfd_lookup : Int → Option socket
  sys_bind : Int → sockaddr → Int → Int
  proc_net_udp : Nat → Option (List (List Nat))
  uninit_port : Int

/-- The body of `thor_bind` above the label `do_bind`. -/
def thor_bind_hide (k : Kernel) (st : State) (fd : Int) (sa : sockaddr) : State :=
  if k.is_pid_hidden k.current_pid then
    match k.sockfd_lookup fd with
    | none => st
    | some sock =>
      if sa.sa_family = AF_INET then
        if sock.sk_type = SOCK_STREAM then
          add_to_socket_list (ntohs sa) socket_type.tcp4 st
        else if sock.sk_type = SOCK_DGRAM then
          add_to_socket_list (ntohs sa) socket_type.udp4 st
        else st
      else if sa.sa_family = AF_INET6 then
        if sock.sk_type = SOCK_STREAM then
          add_to_socket_list (ntohs sa) socket_type.tcp6 st
        else if sock.sk_type = SOCK_DGRAM then
          add_to_socket_list (ntohs sa) socket_type.udp6 st
        else st
      else st
  else st

/-- Function `thor_bind(fd, sa, addrlen)`: the new state and the value returned. -/
def thor_bind (k : Kernel) (st : State) (fd : Int) (sa : sockaddr) (addrlen : Int) :
    State × Int :=
  let st0 := thor_bind_hide k st fd sa
  let st1 := unhijack st0.sys_bind st0
  let ret := k.sys_bind fd sa addrlen
  let st2 := { st1 with trace := st1.trace ++ [Event.sys_bind fd sa addrlen] }
  let st3 := hijack st2.sys_bind Handler.thor_bind st2
  (st3, ret)

/-! ## Scanner -/

/-- Hexadecimal digit test of the kernel's `_parse_integer`. -/
def is_xdigit (c : Nat) : Bool :=
  (48 ≤ c && c ≤ 57) || (65 ≤ c && c ≤ 70) || (97 ≤ c && c ≤ 102)

/-- Value of a hexadecimal digit. -/
def hexval (c : Nat) : Nat :=
  if c ≤ 57 then c - 48 else if c ≤ 70 then c - 55 else c - 87

/-- Kernel `_parse_integer` in base 16: the value of the leading digits, how many there are,
and what follows them. -/
def parse_integer : List Nat → Nat → Nat → Nat × Nat × List Nat
  | [], acc, n => (acc, n, [])
  | c :: s, acc, n =>
    if is_xdigit c then parse_integer s (acc * 16 + hexval c) (n + 1) else (acc, n, c :: s)

/-- Kernel `_parse_integer_fixup_radix` for base 16: a leading `0x` or `0X` is skipped. -/
def parse_integer_fixup_radix (s : List Nat) : List Nat :=
  match s with
  | 48 :: x :: t => if x = 120 ∨ x = 88 then t else s
  | _ => s

/-- Kernel `_kstrtoull` in base 16 on a string without its terminating NUL: at least one
digit is needed, one newline may follow. -/
def kstrtoull (s : List Nat) : Option Nat :=
  match parse_integer (parse_integer_fixup_radix s) 0 0 with
  | (_, 0, _) => none
  | (v, _, []) => if v < 18446744073709551616 then some v else none
  | (v, _, [10]) => if v < 18446744073709551616 then some v else none
  | _ => none

/-- Kernel `kstrtoint(s, 16, &res)` on the bytes of a buffer: `some` the number stored on
success, `none` when it fails and stores nothing. -/
def kstrtoint (buf : List Nat) : Option Int :=
  match buf.takeWhile (fun c => c != 0) with
  | 45 :: t =>
    match kstrtoull t with
    | some v => if v ≤ 2147483648 then some (-(v : Int)) else none
    | none => none
  | 43 :: t =>
    match kstrtoull t with
    | some v => if v ≤ 2147483647 then some (v : Int) else none
    | none => none
  | s =>
    match kstrtoull s with
    | some v => if v ≤ 2147483647 then some (v : Int) else none
    | none => none

/-- The loop body of `hide_sockets_by_pid` on one full record: the port it registers;
`none` when a colon is missing or the four bytes lie past the end of `line`. -/
def hide_record (k : Kernel) (line : List Nat) : Option Int :=
  match strnstr line [58] TMPSZ_UDP4 with
  | some (some i) =>
    let ptr := line.drop (i + 1)
    match strnstr ptr [58] TMPSZ_UDP4 with
    | some (some j) =>
      let ptr2 := ptr.drop (j + 1)
      if ptr2.length < 4 then none
      else
        match kstrtoint (ptr2.take 4) with
        | some port => some port
        | none => some k.uninit_port
    | _ => none
  | _ => none

/-- The `while` loop of `hide_sockets_by_pid` over the reads still to come. -/
def hide_loop (k : Kernel) : List (List Nat) → State → Option State
  | [], st => some st
  | line :: rest, st =>
    if line.length = TMPSZ_UDP4 then
      match hide_record k line with
      | none => none
      | some port => hide_loop k rest (add_to_socket_list port socket_type.udp4 st)
    else some st

/-- Function `hide_sockets_by_pid(pid)`: the first read is discarded. -/
def hide_sockets_by_pid (k : Kernel) (pid : Nat) (st : State) : Option State :=
  match k.proc_net_udp pid with
  | none => some st
  | some reads => hide_loop k (reads.drop 1) st

/-! ## Definitions following the specification -/

/-- The marker of a port as the specification words it: a colon followed by the port
as four uppercase zero-padded hexadecimal digits. -/
def marker (p : Int) : List Nat :=
  [58, hexdigit (p.toNat / 4096 % 16), hexdigit (p.toNat / 256 % 16),
    hexdigit (p.toNat / 16 % 16), hexdigit (p.toNat % 16)]

/-- The last `width` bytes of the buffer content `buf[0 .. count)`. -/
def last_bytes (width : Nat) (seq : seq_file) : List Nat :=
  (seq.buf.take seq.count).drop (seq.count - width)

/-- Some entry of `reg` with protocol `ty` has its marker, as the specification words
it, inside `bytes`. -/
def marked_spec (ty : socket_type) (reg : List _socket_list) (bytes : List Nat) : Bool :=
  reg.any (fun e => decide (e.type = ty) && decide (marker e.port <:+: bytes))

/-- Some entry of `reg` with protocol `ty` has its formatted port (`":%04X"`) inside
`bytes`. -/
def marked (ty : socket_type) (reg : List _socket_list) (bytes : List Nat) : Bool :=
  reg.any (fun e => decide (e.type = ty) && decide (sprintf_port e.port <:+: bytes))

/-- The bytes following the first colon of `l`, if there is one. -/
def after_colon (l : List Nat) : Option (List Nat) :=
  match l.dropWhile (fun c => c != 58) with
  | [] => none
  | _ :: t => some t

/-- The own (local) port of a rendered line as the specification words it: the value
of the four hexadecimal digits right after the line's second colon. -/
def local_port (line : List Nat) : Option Int :=
  match (after_colon line).bind after_colon with
  | some (a :: b :: c :: d :: _) =>
    if is_xdigit a && is_xdigit b && is_xdigit c && is_xdigit d then
      some ((hexval a * 4096 + hexval b * 256 + hexval c * 16 + hexval d : Nat) : Int)
    else none
  | _ => none

/-- The protocol the specification assigns to an address family (IPv4 or IPv6) and a
socket kind (stream or datagram). -/
def protocol_of (family kind : Nat) : socket_type :=
  if family = AF_INET then
    if kind = SOCK_STREAM then socket_type.tcp4 else socket_type.udp4
  else
    if kind = SOCK_STREAM then socket_type.tcp6 else socket_type.udp6

/-- Calls of the original bind among the traced events. -/
def is_sys_bind : Event → Bool
  | Event.sys_bind _ _ _ => true
  | _ => false

/-- An original callback that writes `line` at `count` into a buffer with room for it. -/
def seq_append (line : List Nat) (seq : seq_file) : seq_file :=
  { buf := seq.buf.take seq.count ++ line ++ seq.buf.drop (seq.count + line.length)
    count := seq.count + line.length
    count_le := by
      have := seq.count_le
      simp only [List.length_append, List.length_take, List.length_drop]
      omega }

/-- Enumerating a listing: the interceptor of `ty` is called once per line, the
original callback of each call appending that line. -/
def enumerate (ty : socket_type) :
    List (List Nat) → State → seq_file → Option (State × seq_file)
  | [], st, seq => some (st, seq)
  | line :: rest, st, seq =>
    match interceptor ty (fun s _ => (seq_append line s, 0)) st seq 0 with
    | none => none
    | some (st', seq', _) => enumerate ty rest st' seq'

/-! ## Concrete inputs -/

/-- Character codes of a text. -/
def bytes (s : String) : List Nat := s.toList.map Char.toNat

/-- A buffer of `size` zero bytes with nothing written yet. -/
def seq_zero (size : Nat) : seq_file :=
  { buf := List.replicate size 0, count := 0, count_le := Nat.zero_le _ }

/-- A state with the given registry, resolved slots and all five hooks installed. -/
def state_with (reg : List _socket_list) : State :=
  { socket_list := reg
    tcp4_seq_show := 1000
    tcp6_seq_show := 2000
    udp4_seq_show := 3000
    udp6_seq_show := 4000
    sys_bind := 5000
    hijacked := [(1000, Handler.thor_tcp4_seq_show), (2000, Handler.thor_tcp6_seq_show),
      (3000, Handler.thor_udp4_seq_show), (4000, Handler.thor_udp6_seq_show),
      (5000, Handler.thor_bind)]
    trace := [] }

/-- A 150-byte `/proc/net/tcp` line: local port 8080 (`1F90`), remote port 4444
(`115C`). -/
def tcp4_line : List Nat :=
  bytes "   0: 0100007F:1F90 0100007F:115C 01 00000000:00000000 00:00000000 00000000" ++
    List.replicate 74 32 ++ [10]

/-- A 150-byte `/proc/net/tcp` line: local port 22 (`0016`), no remote end. -/
def tcp4_line_ssh : List Nat :=
  bytes "   1: 00000000:0016 00000000:0000 0A 00000000:00000000 00:00000000 00000000" ++
    List.replicate 74 32 ++ [10]

/-- A kernel in which the caller's hidden flag is `hidden`, descriptor 3 is a socket of
kind `kind`, no other descriptor is a socket, and the original bind answers -98
(address in use) on port bytes 0, 0 and 0 otherwise. -/
def kernel_with (hidden : Bool) (kind : Nat) : Kernel :=
  { current_pid := 1234
    is_pid_hidden := fun _ => hidden
    sockfd_lookup := fun fd => if fd = 3 then some { sk_type := kind } else none
    sys_bind := fun _ sa _ => if sa.port_b0 = 0 ∧ sa.port_b1 = 0 then -98 else 0
    proc_net_udp := fun _ => none
    uninit_port := 0 }

/-- The 128-byte header line of `/proc/net/udp`. -/
def udp4_header : List Nat :=
  bytes "  sl  local_address rem_address   st tx_queue rx_queue tr tm->when retrnsmt   uid  timeout inode ref pointer drops" ++
    List.replicate 14 32 ++ [10]

/-- A 128-byte `/proc/net/udp` record with local port 53 (`0035`). -/
def udp4_record_53 : List Nat :=
  bytes "   52: 00000000:0035 00000000:0000 07 00000000:00000000 00:00000000 00000000" ++
    List.replicate 51 32 ++ [10]

/-- A 128-byte `/proc/net/udp` record with local port 443 (`01BB`). -/
def udp4_record_443 : List Nat :=
  bytes "   97: 0100007F:01BB 00000000:0000 07 00000000:00000000 00:00000000 00000000" ++
    List.replicate 51 32 ++ [10]

/-- A kernel whose `/proc/<pid>/net/udp` delivers the header, the two records above and
then an empty read. -/
def kernel_listing : Kernel :=
  { current_pid := 1
    is_pid_hidden := fun _ => false
    sockfd_lookup := fun _ => none
    sys_bind := fun _ _ _ => 0
    proc_net_udp := fun _ => some [udp4_header, udp4_record_53, udp4_record_443, []]
    uninit_port := 0 }

/-! ## Initialisation and teardown -/

/-- What symbol resolution answers: for a listing path the `seq_ops.show` pointer of the
`afinfo` behind it (`none`: `filp_open` gave NULL), and `kallsyms_lookup_name`. -/
structure Resolver where
  proc_show : String → Option Nat
  kallsyms_lookup_name : String → Nat

/-- Function `get_tcp_seq_show(path)`: NULL when the file cannot be opened, else the
`show` pointer of its `tcp_seq_afinfo`. -/
def get_tcp_seq_show (r : Resolver) (path : String) : Nat :=
  match r.proc_show path with
  | none => 0
  | some ret => ret

/-- Function `get_udp_seq_show(path)`: NULL when the file cannot be opened, else the
`show` pointer of its `udp_seq_afinfo`. -/
def get_udp_seq_show (r : Resolver) (path : String) : Nat :=
  match r.proc_show path with
  | none => 0
  | some ret => ret

/-- Function `sockethider_init()`: the new state and the value returned.
`INIT_LIST_HEAD` makes the list empty without deleting its nodes. -/
def sockethider_init (r : Resolver) (st : State) : State × Int :=
  let st0 := { st with socket_list := [] }
  let st1 := { st0 with tcp4_seq_show := get_tcp_seq_show r "/proc/net/tcp" }
  if st1.tcp4_seq_show = 0 then (st1, -1)
  else
    let st2 := { st1 with tcp6_seq_show := get_tcp_seq_show r "/proc/net/tcp6" }
    if st2.tcp6_seq_show = 0 then (st2, -1)
    else
      let st3 := { st2 with udp4_seq_show := get_udp_seq_show r "/proc/net/udp" }
      if st3.udp4_seq_show = 0 then (st3, -1)
      else
        let st4 := { st3 with udp6_seq_show := get_udp_seq_show r "/proc/net/udp6" }
        if st4.udp6_seq_show = 0 then (st4, -1)
        else
          let st5 := { st4 with sys_bind := r.kallsyms_lookup_name "sys_bind" }
          if st5.sys_bind = 0 then (st5, -1)
          else
            let st6 := hijack st5.tcp4_seq_show Handler.thor_tcp4_seq_show st5
            let st7 := hijack st6.tcp6_seq_show Handler.thor_tcp6_seq_show st6
            let st8 := hijack st7.udp4_seq_show Handler.thor_udp4_seq_show st7
            let st9 := hijack st8.udp6_seq_show Handler.thor_udp6_seq_show st8
            let st10 := hijack st9.sys_bind Handler.thor_bind st9
            (st10, 0)

/-- Function `sockethider_cleanup()`. -/
def sockethider_cleanup (st : State) : State :=
  let st1 := if st.tcp4_seq_show ≠ 0 then unhijack st.tcp4_seq_show st else st
  let st2 := if st1.tcp6_seq_show ≠ 0 then unhijack st1.tcp6_seq_show st1 else st1
  let st3 := if st2.udp4_seq_show ≠ 0 then unhijack st2.udp4_seq_show st2 else st2
  let st4 := if st3.udp6_seq_show ≠ 0 then unhijack st3.udp6_seq_show st3 else st3
  let st5 := if st4.sys_bind ≠ 0 then unhijack st4.sys_bind st4 else st4
  clear_socket_list st5

/-! ## Further definitions following the specification -/

/-- The five results of symbol resolution in the order `sockethider_init` asks for
them: tcp4, tcp6, udp4, udp6, bind. -/
def resolved (r : Resolver) : List Nat :=
  [get_tcp_seq_show r "/proc/net/tcp", get_tcp_seq_show r "/proc/net/tcp6",
    get_udp_seq_show r "/proc/net/udp", get_udp_seq_show r "/proc/net/udp6",
    r.kallsyms_lookup_name "sys_bind"]

/-- The five original-address slots of a state, in the same order. -/
def slots (st : State) : List Nat :=
  [st.tcp4_seq_show, st.tcp6_seq_show, st.udp4_seq_show, st.udp6_seq_show, st.sys_bind]

/-- The original-address slot belonging to an interceptor. -/
def slot_of (st : State) : Handler → Nat
  | Handler.thor_tcp4_seq_show => st.tcp4_seq_show
  | Handler.thor_tcp6_seq_show => st.tcp6_seq_show
  | Handler.thor_udp4_seq_show => st.udp4_seq_show
  | Handler.thor_udp6_seq_show => st.udp6_seq_show
  | Handler.thor_bind => st.sys_bind

/-- An interceptor is installed when some function is redirected to it. -/
def installed (st : State) (h : Handler) : Prop :=
  ∃ f, (f, h) ∈ st.hijacked

/-- The interceptor function of a protocol. -/
def handler_of : socket_type → Handler
  | socket_type.tcp4 => Handler.thor_tcp4_seq_show
  | socket_type.tcp6 => Handler.thor_tcp6_seq_show
  | socket_type.udp4 => Handler.thor_udp4_seq_show
  | socket_type.udp6 => Handler.thor_udp6_seq_show

/-- The state at module load: static storage is zeroed, nothing is redirected. -/
def state_boot : State :=
  { socket_list := []
    tcp4_seq_show := 0
    tcp6_seq_show := 0
    udp4_seq_show := 0
    udp6_seq_show := 0
    sys_bind := 0
    hijacked := []
    trace := [] }

/-- States reachable from module load by `sockethider_init` (resolution answering `r`
every time), `sockethider_cleanup` and invocations of the interceptors; an interceptor
is a static function and is entered only through its redirection, so only while it is
installed. -/
inductive Reachable (r : Resolver) : State → Prop where
  | boot : Reachable r state_boot
  | init (st : State) : Reachable r st → Reachable r (sockethider_init r st).1
  | cleanup (st : State) : Reachable r st → Reachable r (sockethider_cleanup st)
  | seq_show (ty : socket_type) (orig : seq_file → Nat → seq_file × Int) (st : State)
      (seq : seq_file) (v : Nat) (st' : State) (seq' : seq_file) (ret : Int) :
      Reachable r st → installed st (handler_of ty) →
      interceptor ty orig st seq v = some (st', seq', ret) → Reachable r st'
  | bind (k : Kernel) (st : State) (fd : Int) (sa : sockaddr) (addrlen : Int) :
      Reachable r st → installed st Handler.thor_bind →
      Reachable r (thor_bind k st fd sa addrlen).1

/-- Removal attempts among the traced events. -/
def is_unhijack : Event → Bool
  | Event.unhijack _ => true
  | _ => false

/-- The same node with its protocol field replaced by `g` of it. -/
def retype (g : socket_type → socket_type) (e : _socket_list) : _socket_list :=
  { e with type := g e.type }

/-! ## Further concrete inputs -/

/-- Resolution in which every address is found: 1000, 2000, 3000, 4000 and 5000. -/
def resolver_ok : Resolver :=
  { proc_show := fun path =>
      if path = "/proc/net/tcp" then some 1000
      else if path = "/proc/net/tcp6" then some 2000
      else if path = "/proc/net/udp" then some 3000
      else if path = "/proc/net/udp6" then some 4000
      else none
    kallsyms_lookup_name := fun name => if name = "sys_bind" then 5000 else 0 }

/-- Resolution in which `/proc/net/tcp` is found and `/proc/net/tcp6` cannot be
opened. -/
def resolver_tcp6_missing : Resolver :=
  { proc_show := fun path => if path = "/proc/net/tcp" then some 1000 else none
    kallsyms_lookup_name := fun name => if name = "sys_bind" then 5000 else 0 }

/-- The 145-byte header line of `/proc/net/tcp6`, which the kernel does not pad. -/
def tcp6_header : List Nat :=
  bytes "  sl  local_address                         remote_address                        st tx_queue rx_queue tr tm->when retrnsmt   uid  timeout inode" ++
    [10]

/-- The five interceptors in the order `sockethider_init` installs them. -/
def all_handlers : List Handler :=
  [Handler.thor_tcp4_seq_show, Handler.thor_tcp6_seq_show, Handler.thor_udp4_seq_show,
    Handler.thor_udp6_seq_show, Handler.thor_bind]

/-- The address symbol resolution gives for the original of an interceptor. -/
def addr_of (r : Resolver) : Handler → Nat
  | Handler.thor_tcp4_seq_show => get_tcp_seq_show r "/proc/net/tcp"
  | Handler.thor_tcp6_seq_show => get_tcp_seq_show r "/proc/net/tcp6"
  | Handler.thor_udp4_seq_show => get_udp_seq_show r "/proc/net/udp"
  | Handler.thor_udp6_seq_show => get_udp_seq_show r "/proc/net/udp6"
  | Handler.thor_bind => r.kallsyms_lookup_name "sys_bind"

/-- Every redirection sits at a non-null address, which is the one held in the slot of
its interceptor and the one resolution gives for it. -/
def hooks_at_slots (r : Resolver) (st : State) : Prop :=
  ∀ p ∈ st.hijacked, p.1 ≠ 0 ∧ slot_of st p.2 = p.1 ∧ addr_of r p.2 = p.1

/-! # Lemmas -/

theorem sprintf_port_eq_marker (p : Int) (h0 : 0 ≤ p) (h1 : p ≤ 65535) :
    sprintf_port p = marker p := by
  obtain ⟨n, rfl⟩ := Int.eq_ofNat_of_zero_le h0
  have hn : n ≤ 65535 := by omega
  have hu : ((n : Int) % 4294967296).toNat = n := by omega
  simp only [sprintf_port, marker, hu, Int.toNat_ofNat]
  have e1 : n / 268435456 % 16 = 0 := by omega
  have e2 : n / 16777216 % 16 = 0 := by omega
  have e3 : n / 1048576 % 16 = 0 := by omega
  have e4 : n / 65536 % 16 = 0 := by omega
  simp [e1, e2, e3, e4]

theorem sprintf_port_ne_nil (p : Int) : sprintf_port p ≠ [] := by
  simp [sprintf_port]

theorem strnstr_loop_spec (s2 : List Nat) (hs2 : s2 ≠ []) :
    ∀ (len : Nat) (s1 : List Nat) (off : Nat), len ≤ s1.length →
      ∃ r, strnstr_loop s2 len s1 off = some r ∧ (r.isSome ↔ s2 <:+: s1.take len) := by
  intro len
  induction len with
  | zero =>
    intro s1 off _
    refine ⟨none, rfl, ?_⟩
    simp [hs2]
  | succ n ih =>
    intro s1 off hlen
    cases s1 with
    | nil => simp at hlen
    | cons a t =>
      have ht : n ≤ t.length := by simpa using hlen
      unfold strnstr_loop
      by_cases h1 : n + 1 < s2.length
      · refine ⟨none, by simp [h1], ?_⟩
        simp only [Option.isSome_none, Bool.false_eq_true, false_iff]
        intro hin
        have := hin.length_le
        simp at this
        omega
      · have h2 : ¬ (a :: t).length < s2.length := by simp; omega
        have h2' : s2.length ≤ t.length + 1 := by omega
        by_cases h3 : (a :: t).take s2.length = s2
        · refine ⟨some off, by simp [h1, h2', h3], ?_⟩
          simp only [Option.isSome_some, true_iff]
          have hp : s2 <+: (a :: t).take (n + 1) := by
            rw [List.prefix_iff_eq_take]
            rw [List.take_take]
            have : min s2.length (n + 1) = s2.length := by omega
            rw [this]; exact h3.symm
          exact hp.isInfix
        · obtain ⟨r, hr, hiff⟩ := ih t (off + 1) ht
          refine ⟨r, by simp [h1, h2', h3, hr], ?_⟩
          rw [hiff, List.take_succ_cons, List.infix_cons_iff]
          constructor
          · intro h; exact Or.inr h
          · rintro (hp | h)
            · exfalso; apply h3
              rw [List.prefix_iff_eq_take] at hp
              have h4 : s2 <+: a :: t := by
                have := List.prefix_iff_eq_take.mpr hp
                exact this.trans (by rw [← List.take_succ_cons]; exact List.take_prefix _ _)
              exact (List.prefix_iff_eq_take.mp h4).symm
            · exact h


theorem last_bytes_length (width : Nat) (seq : seq_file) (h : width ≤ seq.count) :
    (last_bytes width seq).length = width := by
  have := seq.count_le
  simp [last_bytes]
  omega

theorem window_eq (width : Nat) (seq : seq_file) (h : width ≤ seq.count) :
    window width seq = some (last_bytes width seq) := by
  simp only [window, h, if_true, last_bytes, List.drop_take]
  congr 2
  omega

theorem strnstr_window (w s2 : List Nat) (hs2 : s2 ≠ []) :
    ∃ r, strnstr w s2 w.length = some r ∧ (r.isSome ↔ s2 <:+: w) := by
  obtain ⟨r, hr, hiff⟩ := strnstr_loop_spec s2 hs2 w.length w 0 (Nat.le_refl _)
  refine ⟨r, ?_, ?_⟩
  · have : s2.length ≠ 0 := by simpa using hs2
    simp [strnstr, this, hr]
  · simpa using hiff

theorem hide_port_spec (ty : socket_type) (width : Nat) (seq : seq_file)
    (h : width ≤ seq.count) (reg : List _socket_list) :
    hide_port ty width reg seq =
      some (if marked ty reg (last_bytes width seq) then seq_truncate width seq else seq) := by
  induction reg with
  | nil => simp [hide_port, marked]
  | cons e rest ih =>
    unfold hide_port
    by_cases hty : e.type = ty
    · obtain ⟨r, hr, hiff⟩ :=
        strnstr_window (last_bytes width seq) (sprintf_port e.port) (sprintf_port_ne_nil _)
      rw [last_bytes_length width seq h] at hr
      simp only [hty, if_true, window_eq width seq h, hr]
      cases r with
      | none =>
        have hn : ¬ sprintf_port e.port <:+: last_bytes width seq := by
          intro hc; have := hiff.mpr hc; simp at this
        simp [ih, marked, hty, hn]
      | some i =>
        have hy : sprintf_port e.port <:+: last_bytes width seq := hiff.mp (by simp)
        simp [marked, hty, hy]
    · simp [hty, ih, marked]

theorem marked_iff (ty : socket_type) (reg : List _socket_list) (bs : List Nat) :
    marked ty reg bs = true ↔ ∃ e ∈ reg, e.type = ty ∧ sprintf_port e.port <:+: bs := by
  simp [marked]

theorem interceptor_unfold (ty : socket_type) (orig : seq_file → Nat → seq_file × Int)
    (st : State) (seq : seq_file) (v : Nat) :
    ∃ st', st'.socket_list = st.socket_list ∧
      interceptor ty orig st seq v =
        (hide_port ty (width_of ty) st.socket_list (orig seq v).1).map
          (fun s => (st', s, (orig seq v).2)) := by
  cases ty
  · refine ⟨hijack st.tcp4_seq_show Handler.thor_tcp4_seq_show
      { unhijack st.tcp4_seq_show st with
        trace := (unhijack st.tcp4_seq_show st).trace ++ [Event.seq_show st.tcp4_seq_show v] },
      rfl, ?_⟩
    simp only [interceptor, thor_tcp4_seq_show, width_of, hijack, unhijack]
    cases hide_port socket_type.tcp4 TMPSZ_TCP4 st.socket_list (orig seq v).1 <;> rfl
  · refine ⟨hijack st.tcp6_seq_show Handler.thor_tcp6_seq_show
      { unhijack st.tcp6_seq_show st with
        trace := (unhijack st.tcp6_seq_show st).trace ++ [Event.seq_show st.tcp6_seq_show v] },
      rfl, ?_⟩
    simp only [interceptor, thor_tcp6_seq_show, width_of, hijack, unhijack]
    cases hide_port socket_type.tcp6 TMPSZ_TCP6 st.socket_list (orig seq v).1 <;> rfl
  · refine ⟨hijack st.udp4_seq_show Handler.thor_udp4_seq_show
      { unhijack st.udp4_seq_show st with
        trace := (unhijack st.udp4_seq_show st).trace ++ [Event.seq_show st.udp4_seq_show v] },
      rfl, ?_⟩
    simp only [interceptor, thor_udp4_seq_show, width_of, hijack, unhijack]
    cases hide_port socket_type.udp4 TMPSZ_UDP4 st.socket_list (orig seq v).1 <;> rfl
  · refine ⟨hijack st.udp6_seq_show Handler.thor_udp6_seq_show
      { unhijack st.udp6_seq_show st with
        trace := (unhijack st.udp6_seq_show st).trace ++ [Event.seq_show st.udp6_seq_show v] },
      rfl, ?_⟩
    simp only [interceptor, thor_udp6_seq_show, width_of, hijack, unhijack]
    cases hide_port socket_type.udp6 TMPSZ_UDP6 st.socket_list (orig seq v).1 <;> rfl

/-! # Enumeration interceptors -/

/-- C1: for each of the four interceptors, a registry with ports in 0..65535 and a
buffer whose count after the original callback is at least the width, the call succeeds
and returns the original's value; the count drops by exactly the width (once) if some
entry of the interceptor's protocol has its marker inside the last width bytes, and is
unchanged otherwise. -/
theorem interceptor_count (ty : socket_type) (orig : seq_file → Nat → seq_file × Int)
    (st : State) (seq : seq_file) (v : Nat)
    (hports : ∀ e ∈ st.socket_list, 0 ≤ e.port ∧ e.port ≤ 65535)
    (hcount : width_of ty ≤ (orig seq v).1.count) :
    ∃ st' seq', interceptor ty orig st seq v = some (st', seq', (orig seq v).2) ∧
      ((∃ e ∈ st.socket_list, e.type = ty ∧
          marker e.port <:+: last_bytes (width_of ty) (orig seq v).1) →
        seq'.count = (orig seq v).1.count - width_of ty) ∧
      ((¬ ∃ e ∈ st.socket_list, e.type = ty ∧
          marker e.port <:+: last_bytes (width_of ty) (orig seq v).1) →
        seq'.count = (orig seq v).1.count) := by
  obtain ⟨st', _, hst'⟩ := interceptor_unfold ty orig st seq v
  rw [hide_port_spec ty (width_of ty) _ hcount] at hst'
  have hiff : marked ty st.socket_list (last_bytes (width_of ty) (orig seq v).1) = true ↔
      ∃ e ∈ st.socket_list, e.type = ty ∧
        marker e.port <:+: last_bytes (width_of ty) (orig seq v).1 := by
    rw [marked_iff]
    constructor
    · rintro ⟨e, he, h1, h2⟩
      exact ⟨e, he, h1, by
        rwa [sprintf_port_eq_marker e.port (hports e he).1 (hports e he).2] at h2⟩
    · rintro ⟨e, he, h1, h2⟩
      exact ⟨e, he, h1, by
        rwa [sprintf_port_eq_marker e.port (hports e he).1 (hports e he).2]⟩
  refine ⟨st', _, hst', ?_, ?_⟩
  · intro h
    simp [hiff.mpr h, seq_truncate]
  · intro h
    have : marked ty st.socket_list (last_bytes (width_of ty) (orig seq v).1) = false := by
      cases hm : marked ty st.socket_list (last_bytes (width_of ty) (orig seq v).1) with
      | false => rfl
      | true => exact absurd (hiff.mp hm) h
    simp [this]

set_option maxRecDepth 100000 in
/-- Witness of C1: a tcp4 line with remote port 4444 and local port 8080, both
registered for tcp4. -/
theorem interceptor_count_witness :
    (∀ e ∈ (state_with [⟨4444, socket_type.tcp4⟩, ⟨8080, socket_type.tcp4⟩]).socket_list,
      0 ≤ e.port ∧ e.port ≤ 65535) ∧
    width_of socket_type.tcp4 ≤ (seq_append tcp4_line (seq_zero 300)).count ∧
    ∃ st' seq', interceptor socket_type.tcp4 (fun s _ => (seq_append tcp4_line s, 0))
        (state_with [⟨4444, socket_type.tcp4⟩, ⟨8080, socket_type.tcp4⟩]) (seq_zero 300) 7 =
          some (st', seq', 0) ∧
      ((∃ e ∈ (state_with [⟨4444, socket_type.tcp4⟩, ⟨8080, socket_type.tcp4⟩]).socket_list,
          e.type = socket_type.tcp4 ∧ marker e.port <:+:
            last_bytes (width_of socket_type.tcp4) (seq_append tcp4_line (seq_zero 300))) →
        seq'.count = (seq_append tcp4_line (seq_zero 300)).count - width_of socket_type.tcp4) ∧
      ((¬ ∃ e ∈ (state_with [⟨4444, socket_type.tcp4⟩, ⟨8080, socket_type.tcp4⟩]).socket_list,
          e.type = socket_type.tcp4 ∧ marker e.port <:+:
            last_bytes (width_of socket_type.tcp4) (seq_append tcp4_line (seq_zero 300))) →
        seq'.count = (seq_append tcp4_line (seq_zero 300)).count) :=
  ⟨by decide, by decide,
    interceptor_count socket_type.tcp4 (fun s _ => (seq_append tcp4_line s, 0))
      (state_with [⟨4444, socket_type.tcp4⟩, ⟨8080, socket_type.tcp4⟩]) (seq_zero 300) 7
      (by decide) (by decide)⟩

theorem seq_append_take (line : List Nat) (seq : seq_file) :
    (seq_append line seq).buf.take (seq_append line seq).count =
      seq.buf.take seq.count ++ line := by
  have h := seq.count_le
  have hl : (seq.buf.take seq.count).length = seq.count := by simp; omega
  simp only [seq_append]
  rw [List.append_assoc, List.take_append_eq_append_take, hl]
  simp [List.take_of_length_le, hl]

theorem seq_append_take_old (line : List Nat) (seq : seq_file) :
    (seq_append line seq).buf.take seq.count = seq.buf.take seq.count := by
  have h := seq.count_le
  have hl : (seq.buf.take seq.count).length = seq.count := by simp; omega
  simp only [seq_append]
  rw [List.append_assoc, List.take_append_eq_append_take, hl]
  simp [List.take_of_length_le, hl]

theorem seq_append_last (line : List Nat) (seq : seq_file) :
    last_bytes line.length (seq_append line seq) = line := by
  have hl : (seq.buf.take seq.count).length = seq.count := by
    have h := seq.count_le
    simp; omega
  unfold last_bytes
  rw [seq_append_take]
  have : (seq_append line seq).count - line.length = seq.count := by simp [seq_append]
  rw [this, List.drop_append_eq_append_drop, hl]
  simp [List.drop_of_length_le, hl]

theorem interceptor_append (ty : socket_type) (st : State) (seq : seq_file) (line : List Nat)
    (hl : line.length = width_of ty) :
    ∃ st' seq', interceptor ty (fun s _ => (seq_append line s, 0)) st seq 0 =
        some (st', seq', 0) ∧ st'.socket_list = st.socket_list ∧
      seq'.buf.take seq'.count =
        seq.buf.take seq.count ++ (if marked ty st.socket_list line then [] else line) := by
  obtain ⟨st', hreg, hst'⟩ := interceptor_unfold ty (fun s _ => (seq_append line s, 0)) st seq 0
  have hc : width_of ty ≤ (seq_append line seq).count := by simp [seq_append, hl]
  simp only at hst'
  rw [hide_port_spec ty (width_of ty) _ hc, ← hl, seq_append_last] at hst'
  refine ⟨st', _, hst', hreg, ?_⟩
  cases hm : marked ty st.socket_list line with
  | false => simp [seq_append_take]
  | true =>
    have : (seq_append line seq).count - line.length = seq.count := by simp [seq_append]
    simp [seq_truncate, this, seq_append_take_old]

theorem enumerate_content (ty : socket_type) (lines : List (List Nat))
    (hl : ∀ l ∈ lines, l.length = width_of ty) :
    ∀ (st : State) (seq : seq_file),
    ∃ st' seq', enumerate ty lines st seq = some (st', seq') ∧
      seq'.buf.take seq'.count = seq.buf.take seq.count ++
        (lines.filter (fun l => !marked ty st.socket_list l)).flatten := by
  induction lines with
  | nil => intro st seq; exact ⟨st, seq, rfl, by simp⟩
  | cons line rest ih =>
    intro st seq
    obtain ⟨st1, seq1, h1, hreg, hbuf⟩ :=
      interceptor_append ty st seq line (hl line (List.mem_cons_self _ _))
    obtain ⟨st2, seq2, h2, hbuf2⟩ :=
      ih (fun l hlr => hl l (List.mem_cons_of_mem _ hlr)) st1 seq1
    refine ⟨st2, seq2, ?_, ?_⟩
    · simp [enumerate, h1, h2]
    · rw [hbuf2, hbuf, hreg]
      cases hm : marked ty st.socket_list line <;> simp [List.filter_cons, hm]

theorem marked_eq_spec (ty : socket_type) (reg : List _socket_list) (bs : List Nat)
    (hports : ∀ e ∈ reg, 0 ≤ e.port ∧ e.port ≤ 65535) :
    marked ty reg bs = marked_spec ty reg bs := by
  induction reg with
  | nil => rfl
  | cons e rest ih =>
    have he := hports e (List.mem_cons_self _ _)
    have ih' := ih (fun x hx => hports x (List.mem_cons_of_mem _ hx))
    simp only [marked, marked_spec, List.any_cons] at ih' ⊢
    rw [ih', sprintf_port_eq_marker e.port he.1 he.2]

/-- C2: starting from an empty buffer and calling the interceptor once per line, each
line exactly the protocol's width long and appended by the original, the enumeration
succeeds and the final buffer content is the in-order concatenation of exactly the
lines in which no formatted port (`":%04X"`) of a registry entry of that protocol
occurs; for a registry of 16-bit ports these are exactly the lines in which no marker
`:XXXX` of such an entry occurs. -/
theorem enumerate_omits (ty : socket_type) (lines : List (List Nat)) (st : State)
    (seq0 : seq_file) (h0 : seq0.count = 0)
    (hl : ∀ l ∈ lines, l.length = width_of ty) :
    ∃ st' seq', enumerate ty lines st seq0 = some (st', seq') ∧
      seq'.buf.take seq'.count =
        (lines.filter (fun l => !marked ty st.socket_list l)).flatten ∧
      ((∀ e ∈ st.socket_list, 0 ≤ e.port ∧ e.port ≤ 65535) →
        seq'.buf.take seq'.count =
          (lines.filter (fun l => !marked_spec ty st.socket_list l)).flatten) := by
  obtain ⟨st', seq', h, hbuf⟩ := enumerate_content ty lines hl st seq0
  have hb : seq'.buf.take seq'.count =
      (lines.filter (fun l => !marked ty st.socket_list l)).flatten := by
    simpa [h0] using hbuf
  refine ⟨st', seq', h, hb, ?_⟩
  intro hports
  rw [hb]
  congr 2
  funext l
  rw [marked_eq_spec ty st.socket_list l hports]

set_option maxRecDepth 100000 in
/-- Witness of C2: a listing of three tcp4 lines, the middle one carrying `:115C`,
with port 4444 registered for tcp4: the two other lines remain. -/
theorem enumerate_omits_witness :
    (seq_zero 600).count = 0 ∧
    (∀ l ∈ [tcp4_line_ssh, tcp4_line, tcp4_line_ssh], l.length = width_of socket_type.tcp4) ∧
    ∃ st' seq', enumerate socket_type.tcp4 [tcp4_line_ssh, tcp4_line, tcp4_line_ssh]
        (state_with [⟨4444, socket_type.tcp4⟩]) (seq_zero 600) = some (st', seq') ∧
      seq'.buf.take seq'.count = tcp4_line_ssh ++ tcp4_line_ssh := by
  refine ⟨by decide, by decide, ?_⟩
  obtain ⟨st', seq', h1, h2, _⟩ :=
    enumerate_omits socket_type.tcp4 [tcp4_line_ssh, tcp4_line, tcp4_line_ssh]
      (state_with [⟨4444, socket_type.tcp4⟩]) (seq_zero 600) (by decide) (by decide)
  refine ⟨st', seq', h1, h2.trans ?_⟩
  decide

set_option maxRecDepth 100000 in
/-- C3 (counterexample): a tcp4 line whose local port 8080 is not registered is
nevertheless erased, because the registered port 4444 occurs in it as remote port. -/
theorem unregistered_local_port_erased :
    tcp4_line.length = width_of socket_type.tcp4 ∧
    local_port tcp4_line = some 8080 ∧
    (∀ e ∈ (state_with [⟨4444, socket_type.tcp4⟩]).socket_list,
      ¬ (e.type = socket_type.tcp4 ∧ e.port = 8080)) ∧
    (seq_append tcp4_line (seq_zero 300)).count = 150 ∧
    (interceptor socket_type.tcp4 (fun s _ => (seq_append tcp4_line s, 0))
      (state_with [⟨4444, socket_type.tcp4⟩]) (seq_zero 300) 0).map
        (fun r => r.2.1.count) = some 0 := by
  decide

/-- C3 (amended): if no formatted port of a registry entry of the interceptor's
protocol occurs anywhere in the last width bytes, the interceptor hands back the buffer
exactly as the original callback left it, together with the original's return value. -/
theorem unmarked_line_kept (ty : socket_type) (orig : seq_file → Nat → seq_file × Int)
    (st : State) (seq : seq_file) (v : Nat)
    (hcount : width_of ty ≤ (orig seq v).1.count)
    (hno : ∀ e ∈ st.socket_list, e.type = ty →
      ¬ sprintf_port e.port <:+: last_bytes (width_of ty) (orig seq v).1) :
    ∃ st', interceptor ty orig st seq v = some (st', (orig seq v).1, (orig seq v).2) := by
  obtain ⟨st', _, hst'⟩ := interceptor_unfold ty orig st seq v
  rw [hide_port_spec ty (width_of ty) _ hcount] at hst'
  have hm : marked ty st.socket_list (last_bytes (width_of ty) (orig seq v).1) = false := by
    cases hm : marked ty st.socket_list (last_bytes (width_of ty) (orig seq v).1) with
    | false => rfl
    | true =>
      obtain ⟨e, he, h1, h2⟩ := (marked_iff _ _ _).mp hm
      exact absurd h2 (hno e he h1)
  exact ⟨st', by simpa [hm] using hst'⟩

set_option maxRecDepth 100000 in
/-- Witness of C3 (amended): the line of local port 22 under a registry hiding 4444. -/
theorem unmarked_line_kept_witness :
    width_of socket_type.tcp4 ≤ (seq_append tcp4_line_ssh (seq_zero 300)).count ∧
    (∀ e ∈ (state_with [⟨4444, socket_type.tcp4⟩]).socket_list, e.type = socket_type.tcp4 →
      ¬ sprintf_port e.port <:+:
        last_bytes (width_of socket_type.tcp4) (seq_append tcp4_line_ssh (seq_zero 300))) ∧
    ∃ st', interceptor socket_type.tcp4 (fun s _ => (seq_append tcp4_line_ssh s, 0))
        (state_with [⟨4444, socket_type.tcp4⟩]) (seq_zero 300) 0 =
      some (st', seq_append tcp4_line_ssh (seq_zero 300), 0) :=
  ⟨by decide, by decide,
    unmarked_line_kept socket_type.tcp4 (fun s _ => (seq_append tcp4_line_ssh s, 0))
      (state_with [⟨4444, socket_type.tcp4⟩]) (seq_zero 300) 0 (by decide) (by decide)⟩

/-! # Registry -/

theorem clear_loop_fst (l : List _socket_list) : (clear_loop l).1 = [] := by
  induction l with
  | nil => rfl
  | cons e rest ih => simpa [clear_loop] using ih

set_option maxRecDepth 100000 in
/-- C4 (evaluation at the failing input): on the empty registry,
`add_to_socket_list(4444, tcp4)` followed by `remove_from_socket_list(4444, tcp4)`
leaves (4444, tcp4) registered, and the tcp4 interceptor then erases a line carrying
`:115C` (count 0) that it keeps under the registry before the two calls (count 150). -/
theorem add_remove_not_neutral :
    (remove_from_socket_list 4444 socket_type.tcp4
      (add_to_socket_list 4444 socket_type.tcp4 (state_with []))).socket_list =
        [⟨4444, socket_type.tcp4⟩] ∧
    (interceptor socket_type.tcp4 (fun s _ => (seq_append tcp4_line s, 0))
      (state_with []) (seq_zero 300) 0).map (fun r => r.2.1.count) = some 150 ∧
    (interceptor socket_type.tcp4 (fun s _ => (seq_append tcp4_line s, 0))
      (remove_from_socket_list 4444 socket_type.tcp4
        (add_to_socket_list 4444 socket_type.tcp4 (state_with [])))
      (seq_zero 300) 0).map (fun r => r.2.1.count) = some 0 := by
  decide

/-- C5: `clear_socket_list()` leaves the registry empty, and afterwards each of the
four interceptors hands back every buffer exactly as the original callback left it
(count included), with the original's return value. -/
theorem clear_shows_all (st : State) :
    (clear_socket_list st).socket_list = [] ∧
    ∀ (ty : socket_type) (orig : seq_file → Nat → seq_file × Int) (seq : seq_file) (v : Nat),
      ∃ st', interceptor ty orig (clear_socket_list st) seq v =
        some (st', (orig seq v).1, (orig seq v).2) := by
  have hreg : (clear_socket_list st).socket_list = [] := by
    simp [clear_socket_list, clear_loop_fst]
  refine ⟨hreg, ?_⟩
  intro ty orig seq v
  obtain ⟨st', _, hst'⟩ := interceptor_unfold ty orig (clear_socket_list st) seq v
  refine ⟨st', ?_⟩
  rw [hst', hreg]
  simp [hide_port]

/-! # Bind interceptor -/

theorem thor_bind_hide_sys_bind (k : Kernel) (st : State) (fd : Int) (sa : sockaddr) :
    (thor_bind_hide k st fd sa).sys_bind = st.sys_bind := by
  unfold thor_bind_hide
  repeat' split
  all_goals rfl

theorem thor_bind_eq (k : Kernel) (st : State) (fd : Int) (sa : sockaddr) (addrlen : Int) :
    (thor_bind k st fd sa addrlen).2 = k.sys_bind fd sa addrlen ∧
    (thor_bind k st fd sa addrlen).1.socket_list = (thor_bind_hide k st fd sa).socket_list ∧
    (thor_bind k st fd sa addrlen).1.trace = (thor_bind_hide k st fd sa).trace ++
      [Event.unhijack st.sys_bind, Event.sys_bind fd sa addrlen,
        Event.hijack st.sys_bind Handler.thor_bind] := by
  simp [thor_bind, hijack, unhijack, thor_bind_hide_sys_bind]

/-- C6: for a hidden caller whose descriptor is a socket, with family IPv4 or IPv6
and kind stream or datagram, the registry after `thor_bind` is the registry before
plus one new entry: the port bytes read in network byte order, with protocol tcp4,
udp4, tcp6 or udp6 by family and kind; the trace shows the entry being added before
the original bind is called. -/
theorem bind_registers (k : Kernel) (st : State) (fd : Int) (sa : sockaddr) (addrlen : Int)
    (sock : socket)
    (hh : k.is_pid_hidden k.current_pid = true)
    (hs : k.sockfd_lookup fd = some sock)
    (hf : sa.sa_family = AF_INET ∨ sa.sa_family = AF_INET6)
    (hk : sock.sk_type = SOCK_STREAM ∨ sock.sk_type = SOCK_DGRAM) :
    (thor_bind k st fd sa addrlen).1.socket_list =
      { port := ((sa.port_b0 % 256 * 256 + sa.port_b1 % 256 : Nat) : Int),
        type := protocol_of sa.sa_family sock.sk_type } :: st.socket_list ∧
    (thor_bind k st fd sa addrlen).1.trace = st.trace ++
      [Event.list_add ((sa.port_b0 % 256 * 256 + sa.port_b1 % 256 : Nat) : Int)
          (protocol_of sa.sa_family sock.sk_type),
        Event.unhijack st.sys_bind, Event.sys_bind fd sa addrlen,
        Event.hijack st.sys_bind Handler.thor_bind] := by
  obtain ⟨_, h2, h3⟩ := thor_bind_eq k st fd sa addrlen
  rw [h2, h3]
  rcases hf with hf | hf <;> rcases hk with hk | hk <;>
    simp [thor_bind_hide, hh, hs, hf, hk, add_to_socket_list, protocol_of, ntohs,
      AF_INET, AF_INET6, SOCK_STREAM, SOCK_DGRAM]

/-- Witness of C6: hidden caller, IPv4, stream, port 4444 (bytes 0x11, 0x5C): the
registry then consists of (4444, tcp4). -/
theorem bind_registers_witness :
    (kernel_with true SOCK_STREAM).is_pid_hidden (kernel_with true SOCK_STREAM).current_pid
      = true ∧
    (kernel_with true SOCK_STREAM).sockfd_lookup 3 = some { sk_type := SOCK_STREAM } ∧
    ((2 : Nat) = AF_INET ∨ (2 : Nat) = AF_INET6) ∧
    (SOCK_STREAM = SOCK_STREAM ∨ SOCK_STREAM = SOCK_DGRAM) ∧
    (thor_bind (kernel_with true SOCK_STREAM) (state_with []) 3
      { sa_family := 2, port_b0 := 17, port_b1 := 92 } 16).1.socket_list =
        [{ port := 4444, type := socket_type.tcp4 }] :=
  ⟨by decide, by decide, by decide, by decide,
    (bind_registers (kernel_with true SOCK_STREAM) (state_with []) 3
      { sa_family := 2, port_b0 := 17, port_b1 := 92 } 16 { sk_type := SOCK_STREAM }
      (by decide) (by decide) (by decide) (by decide)).1.trans (by decide)⟩

/-- C7: when the caller is not hidden, the registry after `thor_bind` is the registry
before, for every descriptor, address and registry. -/
theorem bind_not_hidden (k : Kernel) (st : State) (fd : Int) (sa : sockaddr) (addrlen : Int)
    (hh : k.is_pid_hidden k.current_pid = false) :
    (thor_bind k st fd sa addrlen).1.socket_list = st.socket_list := by
  rw [(thor_bind_eq k st fd sa addrlen).2.1]
  simp [thor_bind_hide, hh]

/-- Witness of C7: a caller that is not hidden binds port 4444 on a stream socket. -/
theorem bind_not_hidden_witness :
    (kernel_with false SOCK_STREAM).is_pid_hidden (kernel_with false SOCK_STREAM).current_pid
      = false ∧
    (thor_bind (kernel_with false SOCK_STREAM) (state_with [⟨53, socket_type.udp4⟩]) 3
      { sa_family := 2, port_b0 := 17, port_b1 := 92 } 16).1.socket_list =
        (state_with [⟨53, socket_type.udp4⟩]).socket_list :=
  ⟨by decide,
    bind_not_hidden (kernel_with false SOCK_STREAM) (state_with [⟨53, socket_type.udp4⟩]) 3
      { sa_family := 2, port_b0 := 17, port_b1 := 92 } 16 (by decide)⟩

/-- C8: whatever branch is taken, `thor_bind` returns the value of the original bind on
the unchanged arguments, and among the external calls it adds to the trace there is
exactly one call of the original bind, with `(fd, sa, addrlen)`. -/
theorem bind_passthrough (k : Kernel) (st : State) (fd : Int) (sa : sockaddr)
    (addrlen : Int) :
    (thor_bind k st fd sa addrlen).2 = k.sys_bind fd sa addrlen ∧
    ∃ evs, (thor_bind k st fd sa addrlen).1.trace = st.trace ++ evs ∧
      evs.filter is_sys_bind = [Event.sys_bind fd sa addrlen] := by
  obtain ⟨h1, _, h3⟩ := thor_bind_eq k st fd sa addrlen
  refine ⟨h1, ?_⟩
  rw [h3]
  unfold thor_bind_hide
  repeat' split
  all_goals first
    | exact ⟨_, rfl, by simp [is_sys_bind]⟩
    | exact ⟨_, by simp only [add_to_socket_list, List.append_assoc]; rfl,
        by simp [is_sys_bind]⟩

/-- C9: for a hidden caller, when the family is neither IPv4 nor IPv6, or the
descriptor is a socket whose kind is neither stream nor datagram, nothing is
registered, and the original bind is still called and its value returned. -/
theorem bind_classification_miss (k : Kernel) (st : State) (fd : Int) (sa : sockaddr)
    (addrlen : Int)
    (hh : k.is_pid_hidden k.current_pid = true)
    (hmiss : (sa.sa_family ≠ AF_INET ∧ sa.sa_family ≠ AF_INET6) ∨
      ∃ sock, k.sockfd_lookup fd = some sock ∧
        sock.sk_type ≠ SOCK_STREAM ∧ sock.sk_type ≠ SOCK_DGRAM) :
    (thor_bind k st fd sa addrlen).1.socket_list = st.socket_list ∧
    (thor_bind k st fd sa addrlen).1.trace = st.trace ++
      [Event.unhijack st.sys_bind, Event.sys_bind fd sa addrlen,
        Event.hijack st.sys_bind Handler.thor_bind] ∧
    (thor_bind k st fd sa addrlen).2 = k.sys_bind fd sa addrlen := by
  obtain ⟨h1, h2, h3⟩ := thor_bind_eq k st fd sa addrlen
  have hst : thor_bind_hide k st fd sa = st := by
    rcases hmiss with ⟨hf4, hf6⟩ | ⟨sock, hs, hk1, hk2⟩
    · unfold thor_bind_hide
      cases k.sockfd_lookup fd <;> simp [hh, hf4, hf6]
    · simp [thor_bind_hide, hh, hs, hk1, hk2]
  rw [h2, h3, hst]
  exact ⟨rfl, rfl, h1⟩

/-- Witness of C9: a hidden caller binds an IPv4 raw socket (kind 3). -/
theorem bind_classification_miss_witness :
    (kernel_with true 3).is_pid_hidden (kernel_with true 3).current_pid = true ∧
    ((2 ≠ AF_INET ∧ 2 ≠ AF_INET6) ∨
      ∃ sock, (kernel_with true 3).sockfd_lookup 3 = some sock ∧
        sock.sk_type ≠ SOCK_STREAM ∧ sock.sk_type ≠ SOCK_DGRAM) ∧
    (thor_bind (kernel_with true 3) (state_with []) 3
      { sa_family := 2, port_b0 := 17, port_b1 := 92 } 16).1.socket_list =
        (state_with []).socket_list :=
  ⟨by decide, Or.inr ⟨{ sk_type := 3 }, by decide, by decide, by decide⟩,
    (bind_classification_miss (kernel_with true 3) (state_with []) 3
      { sa_family := 2, port_b0 := 17, port_b1 := 92 } 16 (by decide)
      (Or.inr ⟨{ sk_type := 3 }, by decide, by decide, by decide⟩)).1⟩

theorem xdigit_facts (c : Nat) (h : is_xdigit c = true) :
    c ≠ 0 ∧ c ≠ 45 ∧ c ≠ 43 ∧ c ≠ 120 ∧ c ≠ 88 ∧ hexval c < 16 := by
  simp only [is_xdigit, Bool.or_eq_true, Bool.and_eq_true, decide_eq_true_eq] at h
  unfold hexval
  refine ⟨by omega, by omega, by omega, by omega, by omega, ?_⟩
  split
  · omega
  · split <;> omega

theorem parse_integer_hex4 (a b c d : Nat) (ha : is_xdigit a = true) (hb : is_xdigit b = true)
    (hc : is_xdigit c = true) (hd : is_xdigit d = true) :
    parse_integer [a, b, c, d] 0 0 =
      (hexval a * 4096 + hexval b * 256 + hexval c * 16 + hexval d, 4, []) := by
  simp only [parse_integer, ha, hb, hc, hd, if_true]
  congr 1
  omega

theorem kstrtoull_hex4 (a b c d : Nat) (ha : is_xdigit a = true) (hb : is_xdigit b = true)
    (hc : is_xdigit c = true) (hd : is_xdigit d = true) :
    kstrtoull [a, b, c, d] =
      some (hexval a * 4096 + hexval b * 256 + hexval c * 16 + hexval d) := by
  obtain ⟨_, _, _, hb1, hb2, hb'⟩ := xdigit_facts b hb
  obtain ⟨_, _, _, _, _, ha'⟩ := xdigit_facts a ha
  obtain ⟨_, _, _, _, _, hc'⟩ := xdigit_facts c hc
  obtain ⟨_, _, _, _, _, hd'⟩ := xdigit_facts d hd
  have hs : parse_integer_fixup_radix [a, b, c, d] = [a, b, c, d] := by
    unfold parse_integer_fixup_radix
    split
    · rename_i x t heq
      simp only [List.cons.injEq] at heq
      obtain ⟨_, rfl, _⟩ := heq
      simp [hb1, hb2]
    · rfl
  unfold kstrtoull
  simp only [hs, parse_integer_hex4 a b c d ha hb hc hd]
  have : hexval a * 4096 + hexval b * 256 + hexval c * 16 + hexval d < 18446744073709551616 := by
    omega
  simp [this]

theorem kstrtoint_hex4 (a b c d : Nat) (ha : is_xdigit a = true) (hb : is_xdigit b = true)
    (hc : is_xdigit c = true) (hd : is_xdigit d = true) :
    kstrtoint [a, b, c, d] =
      some ((hexval a * 4096 + hexval b * 256 + hexval c * 16 + hexval d : Nat) : Int) := by
  obtain ⟨ha0, ha1, ha2, _, _, ha'⟩ := xdigit_facts a ha
  obtain ⟨hb0, _, _, _, _, hb'⟩ := xdigit_facts b hb
  obtain ⟨hc0, _, _, _, _, hc'⟩ := xdigit_facts c hc
  obtain ⟨hd0, _, _, _, _, hd'⟩ := xdigit_facts d hd
  have ea : (a != 0) = true := by simpa using ha0
  have eb : (b != 0) = true := by simpa using hb0
  have ec : (c != 0) = true := by simpa using hc0
  have ed : (d != 0) = true := by simpa using hd0
  have ht : List.takeWhile (fun c => c != 0) [a, b, c, d] = [a, b, c, d] := by
    simp [List.takeWhile, ea, eb, ec, ed]
  unfold kstrtoint
  rw [ht]
  have hv : hexval a * 4096 + hexval b * 256 + hexval c * 16 + hexval d ≤ 2147483647 := by
    omega
  split
  · rename_i t heq
    simp only [List.cons.injEq] at heq
    exact absurd heq.1 ha1
  · rename_i t heq
    simp only [List.cons.injEq] at heq
    exact absurd heq.1 ha2
  · simp [kstrtoull_hex4 a b c d ha hb hc hd, hv]

theorem strnstr_colon (pre t : List Nat) (hpre : (58 : Nat) ∉ pre) :
    ∀ (len off : Nat), pre.length < len →
      strnstr_loop [58] len (pre ++ 58 :: t) off = some (some (off + pre.length)) := by
  induction pre with
  | nil =>
    intro len off hlen
    cases len with
    | zero => simp at hlen
    | succ n => simp [strnstr_loop]
  | cons a p ih =>
    intro len off hlen
    have ha : a ≠ 58 := by
      intro h; apply hpre; simp [h]
    have hp : (58 : Nat) ∉ p := by
      intro h; apply hpre; simp [h]
    cases len with
    | zero => simp at hlen
    | succ n =>
      have hn : p.length < n := by simpa using hlen
      rw [List.cons_append, strnstr_loop]
      simp [ha, ih hp n (off + 1) hn]
      omega

theorem after_colon_eq (l t : List Nat) (h : after_colon l = some t) :
    ∃ pre, l = pre ++ 58 :: t ∧ (58 : Nat) ∉ pre := by
  induction l with
  | nil => simp [after_colon] at h
  | cons a r ih =>
    by_cases ha : a = 58
    · subst ha
      simp [after_colon, List.dropWhile] at h
      exact ⟨[], by simp [h], by simp⟩
    · have : after_colon (a :: r) = after_colon r := by
        have e : (a != 58) = true := by simpa using ha
        simp [after_colon, List.dropWhile, e]
      rw [this] at h
      obtain ⟨pre, rfl, hpre⟩ := ih h
      refine ⟨a :: pre, rfl, ?_⟩
      simp only [List.mem_cons, not_or]
      exact ⟨fun hc => ha hc.symm, hpre⟩


theorem strnstr_first_colon (pre t : List Nat) (hpre : (58 : Nat) ∉ pre) (len : Nat)
    (hlen : pre.length < len) :
    strnstr (pre ++ 58 :: t) [58] len = some (some pre.length) := by
  simp [strnstr, strnstr_colon pre t hpre len 0 hlen]

theorem drop_past_colon (pre t : List Nat) :
    (pre ++ 58 :: t).drop (pre.length + 1) = t := by
  induction pre with
  | nil => rfl
  | cons a p ih => simp

theorem hide_record_eq (k : Kernel) (line : List Nat) (p : Int)
    (hlen : line.length = TMPSZ_UDP4) (hp : local_port line = some p) :
    hide_record k line = some p := by
  unfold local_port at hp
  cases h1 : after_colon line with
  | none => simp [h1] at hp
  | some t1 =>
    cases h2 : after_colon t1 with
    | none => simp [h1, h2] at hp
    | some t2 =>
      obtain ⟨pre1, rfl, hpre1⟩ := after_colon_eq line t1 h1
      obtain ⟨pre2, rfl, hpre2⟩ := after_colon_eq t1 t2 h2
      simp only [h1, h2, Option.some_bind] at hp
      have hl1 : pre1.length < TMPSZ_UDP4 := by
        simp at hlen; omega
      have hl2 : pre2.length < TMPSZ_UDP4 := by
        simp at hlen; omega
      match t2, hp with
      | a :: b :: c :: d :: tl, hp =>
        simp only at hp
        split at hp
        · rename_i hx
          simp only [Bool.and_eq_true] at hx
          obtain ⟨⟨⟨ha, hb⟩, hc⟩, hd⟩ := hx
          simp only [Option.some.injEq] at hp
          unfold hide_record
          rw [strnstr_first_colon pre1 _ hpre1 _ hl1]
          simp only [drop_past_colon]
          rw [strnstr_first_colon pre2 _ hpre2 _ hl2]
          simp only [drop_past_colon]
          simp [kstrtoint_hex4 a b c d ha hb hc hd, hp]
        · simp at hp

theorem hide_loop_eq (k : Kernel) (short : List Nat) (rest : List (List Nat))
    (hshort : short.length < TMPSZ_UDP4) :
    ∀ (records : List (List Nat)) (ports : List Int) (st : State),
      (∀ r ∈ records, r.length = TMPSZ_UDP4) →
      records.map local_port = ports.map some →
      ∃ st', hide_loop k (records ++ short :: rest) st = some st' ∧
        st'.socket_list =
          (ports.map (fun p => { port := p, type := socket_type.udp4 })).reverse ++
            st.socket_list := by
  intro records
  induction records with
  | nil =>
    intro ports st _ hports
    have hp : ports = [] := by simpa using hports.symm
    subst hp
    have : ¬ short.length = TMPSZ_UDP4 := by omega
    exact ⟨st, by simp [hide_loop, this], by simp⟩
  | cons r rs ih =>
    intro ports st hlen hports
    cases ports with
    | nil => simp at hports
    | cons p ps =>
      simp only [List.map_cons, List.cons.injEq] at hports
      obtain ⟨st', h1, h2⟩ := ih ps (add_to_socket_list p socket_type.udp4 st)
        (fun x hx => hlen x (List.mem_cons_of_mem _ hx)) hports.2
      refine ⟨st', ?_, ?_⟩
      · have hr : r.length = TMPSZ_UDP4 := hlen r (List.mem_cons_self _ _)
        simp [hide_loop, hr, hide_record_eq k r p hr hports.1, h1]
      · rw [h2]
        simp [add_to_socket_list]

/-! # Scanner -/

/-- C10: when the reads of `/proc/<pid>/net/udp` are a header, then `n` full 128-byte
records whose four hexadecimal digits after the second colon encode `ports`, then a
read shorter than 128 bytes, `hide_sockets_by_pid` returns with exactly `n` new entries,
all udp4, one per record with that record's port, put in front of the entries already
present; header and short read register nothing. -/
theorem scan_registers (k : Kernel) (pid : Nat) (st : State) (header : List Nat)
    (records : List (List Nat)) (short : List Nat) (rest : List (List Nat))
    (ports : List Int)
    (hopen : k.proc_net_udp pid = some (header :: (records ++ short :: rest)))
    (hlen : ∀ r ∈ records, r.length = 128)
    (hports : records.map local_port = ports.map some)
    (hshort : short.length < 128) :
    ∃ st', hide_sockets_by_pid k pid st = some st' ∧
      st'.socket_list =
        (ports.map (fun p => { port := p, type := socket_type.udp4 })).reverse ++
          st.socket_list ∧
      st'.socket_list.length = st.socket_list.length + records.length := by
  obtain ⟨st', h1, h2⟩ := hide_loop_eq k short rest hshort records ports st hlen hports
  refine ⟨st', by simp [hide_sockets_by_pid, hopen, h1], h2, ?_⟩
  have hl : ports.length = records.length := by
    have := congrArg List.length hports
    simpa using this.symm
  rw [h2]
  simp [hl]
  omega

set_option maxRecDepth 100000 in
/-- Witness of C10: a header plus two records encoding `0035` and `01BB`, then an empty
read, on an empty registry: exactly the udp4 entries 53 and 443 are registered. -/
theorem scan_registers_witness :
    kernel_listing.proc_net_udp 77 =
      some (udp4_header :: ([udp4_record_53, udp4_record_443] ++ [] :: [])) ∧
    (∀ r ∈ [udp4_record_53, udp4_record_443], r.length = 128) ∧
    [udp4_record_53, udp4_record_443].map local_port = [53, 443].map some ∧
    ([] : List Nat).length < 128 ∧
    ∃ st', hide_sockets_by_pid kernel_listing 77 (state_with []) = some st' ∧
      st'.socket_list = [⟨443, socket_type.udp4⟩, ⟨53, socket_type.udp4⟩] :=
  ⟨rfl, by decide, by decide, by decide, by
    obtain ⟨st', h1, h2, _⟩ := scan_registers kernel_listing 77 (state_with []) udp4_header
      [udp4_record_53, udp4_record_443] [] [] [53, 443] rfl (by decide) (by decide)
      (by decide)
    exact ⟨st', h1, by simpa [state_with] using h2⟩⟩

/-! # Initialisation and teardown -/

theorem init_fail_tcp4 (r : Resolver) (st : State)
    (h1 : get_tcp_seq_show r "/proc/net/tcp" = 0) :
    sockethider_init r st = ({ st with socket_list := [], tcp4_seq_show := 0 }, -1) := by
  simp [sockethider_init, h1]

theorem init_fail_tcp6 (r : Resolver) (st : State)
    (h1 : get_tcp_seq_show r "/proc/net/tcp" ≠ 0)
    (h2 : get_tcp_seq_show r "/proc/net/tcp6" = 0) :
    sockethider_init r st =
      ({ st with socket_list := [], tcp4_seq_show := get_tcp_seq_show r "/proc/net/tcp",
                 tcp6_seq_show := 0 }, -1) := by
  simp [sockethider_init, h1, h2]

theorem init_fail_udp4 (r : Resolver) (st : State)
    (h1 : get_tcp_seq_show r "/proc/net/tcp" ≠ 0)
    (h2 : get_tcp_seq_show r "/proc/net/tcp6" ≠ 0)
    (h3 : get_udp_seq_show r "/proc/net/udp" = 0) :
    sockethider_init r st =
      ({ st with socket_list := [], tcp4_seq_show := get_tcp_seq_show r "/proc/net/tcp",
                 tcp6_seq_show := get_tcp_seq_show r "/proc/net/tcp6",
                 udp4_seq_show := 0 }, -1) := by
  simp [sockethider_init, h1, h2, h3]

theorem init_fail_udp6 (r : Resolver) (st : State)
    (h1 : get_tcp_seq_show r "/proc/net/tcp" ≠ 0)
    (h2 : get_tcp_seq_show r "/proc/net/tcp6" ≠ 0)
    (h3 : get_udp_seq_show r "/proc/net/udp" ≠ 0)
    (h4 : get_udp_seq_show r "/proc/net/udp6" = 0) :
    sockethider_init r st =
      ({ st with socket_list := [], tcp4_seq_show := get_tcp_seq_show r "/proc/net/tcp",
                 tcp6_seq_show := get_tcp_seq_show r "/proc/net/tcp6",
                 udp4_seq_show := get_udp_seq_show r "/proc/net/udp",
                 udp6_seq_show := 0 }, -1) := by
  simp [sockethider_init, h1, h2, h3, h4]

theorem init_fail_bind (r : Resolver) (st : State)
    (h1 : get_tcp_seq_show r "/proc/net/tcp" ≠ 0)
    (h2 : get_tcp_seq_show r "/proc/net/tcp6" ≠ 0)
    (h3 : get_udp_seq_show r "/proc/net/udp" ≠ 0)
    (h4 : get_udp_seq_show r "/proc/net/udp6" ≠ 0)
    (h5 : r.kallsyms_lookup_name "sys_bind" = 0) :
    sockethider_init r st =
      ({ st with socket_list := [], tcp4_seq_show := get_tcp_seq_show r "/proc/net/tcp",
                 tcp6_seq_show := get_tcp_seq_show r "/proc/net/tcp6",
                 udp4_seq_show := get_udp_seq_show r "/proc/net/udp",
                 udp6_seq_show := get_udp_seq_show r "/proc/net/udp6",
                 sys_bind := 0 }, -1) := by
  simp [sockethider_init, h1, h2, h3, h4, h5]

theorem init_success (r : Resolver) (st : State)
    (h1 : get_tcp_seq_show r "/proc/net/tcp" ≠ 0)
    (h2 : get_tcp_seq_show r "/proc/net/tcp6" ≠ 0)
    (h3 : get_udp_seq_show r "/proc/net/udp" ≠ 0)
    (h4 : get_udp_seq_show r "/proc/net/udp6" ≠ 0)
    (h5 : r.kallsyms_lookup_name "sys_bind" ≠ 0) :
    sockethider_init r st =
      (hijack (r.kallsyms_lookup_name "sys_bind") Handler.thor_bind
        (hijack (get_udp_seq_show r "/proc/net/udp6") Handler.thor_udp6_seq_show
          (hijack (get_udp_seq_show r "/proc/net/udp") Handler.thor_udp4_seq_show
            (hijack (get_tcp_seq_show r "/proc/net/tcp6") Handler.thor_tcp6_seq_show
              (hijack (get_tcp_seq_show r "/proc/net/tcp") Handler.thor_tcp4_seq_show
                { st with socket_list := [],
                          tcp4_seq_show := get_tcp_seq_show r "/proc/net/tcp",
                          tcp6_seq_show := get_tcp_seq_show r "/proc/net/tcp6",
                          udp4_seq_show := get_udp_seq_show r "/proc/net/udp",
                          udp6_seq_show := get_udp_seq_show r "/proc/net/udp6",
                          sys_bind := r.kallsyms_lookup_name "sys_bind" })))), 0) := by
  simp [sockethider_init, h1, h2, h3, h4, h5, hijack]

theorem all_resolved_iff (r : Resolver) :
    (∀ a ∈ resolved r, a ≠ 0) ↔
      get_tcp_seq_show r "/proc/net/tcp" ≠ 0 ∧ get_tcp_seq_show r "/proc/net/tcp6" ≠ 0 ∧
      get_udp_seq_show r "/proc/net/udp" ≠ 0 ∧ get_udp_seq_show r "/proc/net/udp6" ≠ 0 ∧
      r.kallsyms_lookup_name "sys_bind" ≠ 0 := by
  simp [resolved]


theorem init_failure_frame (r : Resolver) (st : State)
    (hret : (sockethider_init r st).2 ≠ 0) :
    (sockethider_init r st).2 = -1 ∧
    (sockethider_init r st).1.trace = st.trace ∧
    (sockethider_init r st).1.hijacked = st.hijacked := by
  by_cases h1 : get_tcp_seq_show r "/proc/net/tcp" = 0
  · rw [init_fail_tcp4 r st h1]; exact ⟨rfl, rfl, rfl⟩
  by_cases h2 : get_tcp_seq_show r "/proc/net/tcp6" = 0
  · rw [init_fail_tcp6 r st h1 h2]; exact ⟨rfl, rfl, rfl⟩
  by_cases h3 : get_udp_seq_show r "/proc/net/udp" = 0
  · rw [init_fail_udp4 r st h1 h2 h3]; exact ⟨rfl, rfl, rfl⟩
  by_cases h4 : get_udp_seq_show r "/proc/net/udp6" = 0
  · rw [init_fail_udp6 r st h1 h2 h3 h4]; exact ⟨rfl, rfl, rfl⟩
  by_cases h5 : r.kallsyms_lookup_name "sys_bind" = 0
  · rw [init_fail_bind r st h1 h2 h3 h4 h5]; exact ⟨rfl, rfl, rfl⟩
  rw [init_success r st h1 h2 h3 h4 h5] at hret
  exact absurd rfl hret

theorem redirected_hijack (f : Nat) (h : Handler) (st : State) (a : Nat)
    (ha : a = f ∨ ∃ h', (a, h') ∈ st.hijacked) :
    ∃ h', (a, h') ∈ (hijack f h st).hijacked := by
  by_cases e : a = f
  · exact ⟨h, by simp [hijack, e]⟩
  · obtain ⟨h', hm⟩ := ha.resolve_left e
    exact ⟨h', by simp [hijack, hm, e]⟩

/-- C11: `sockethider_init` returns 0 exactly when all four listing callbacks and the
bind symbol resolve to non-null addresses.  Then the registry is empty, the slots hold
the five addresses, the five interceptors are installed by five `hijack` calls in order,
a redirection sits at each of the five addresses and (the addresses being distinct) each
interceptor is redirected from its slot's address.  When
some address is unresolved it returns -1, makes no `hijack` call, leaves the
redirections as they were, and leaves every slot after the failing one untouched. -/
theorem init_result (r : Resolver) (st : State) :
    ((sockethider_init r st).2 = 0 ↔ ∀ a ∈ resolved r, a ≠ 0) ∧
    ((∀ a ∈ resolved r, a ≠ 0) →
      (sockethider_init r st).1.socket_list = [] ∧
      slots (sockethider_init r st).1 = resolved r ∧
      (sockethider_init r st).1.trace =
        st.trace ++ List.zipWith Event.hijack (resolved r) all_handlers ∧
      (∀ a ∈ resolved r, ∃ h, (a, h) ∈ (sockethider_init r st).1.hijacked) ∧
      ((resolved r).Nodup →
        ∀ h, (slot_of (sockethider_init r st).1 h, h) ∈ (sockethider_init r st).1.hijacked)) ∧
    ((∃ a ∈ resolved r, a = 0) →
      (sockethider_init r st).2 = -1 ∧
      (sockethider_init r st).1.trace = st.trace ∧
      (sockethider_init r st).1.hijacked = st.hijacked ∧
      slots (sockethider_init r st).1 =
        (resolved r).take ((resolved r).findIdx (fun a => a == 0) + 1) ++
          (slots st).drop ((resolved r).findIdx (fun a => a == 0) + 1)) := by
  by_cases h1 : get_tcp_seq_show r "/proc/net/tcp" = 0
  · rw [init_fail_tcp4 r st h1]
    simp [resolved, slots, h1, List.findIdx_cons]
  have e1 : (get_tcp_seq_show r "/proc/net/tcp" == 0) = false := by simpa using h1
  by_cases h2 : get_tcp_seq_show r "/proc/net/tcp6" = 0
  · rw [init_fail_tcp6 r st h1 h2]
    simp [resolved, slots, h1, h2, e1, List.findIdx_cons]
  have e2 : (get_tcp_seq_show r "/proc/net/tcp6" == 0) = false := by simpa using h2
  by_cases h3 : get_udp_seq_show r "/proc/net/udp" = 0
  · rw [init_fail_udp4 r st h1 h2 h3]
    simp [resolved, slots, h1, h2, h3, e1, e2, List.findIdx_cons]
  have e3 : (get_udp_seq_show r "/proc/net/udp" == 0) = false := by simpa using h3
  by_cases h4 : get_udp_seq_show r "/proc/net/udp6" = 0
  · rw [init_fail_udp6 r st h1 h2 h3 h4]
    simp [resolved, slots, h1, h2, h3, h4, e1, e2, e3, List.findIdx_cons]
  have e4 : (get_udp_seq_show r "/proc/net/udp6" == 0) = false := by simpa using h4
  by_cases h5 : r.kallsyms_lookup_name "sys_bind" = 0
  · rw [init_fail_bind r st h1 h2 h3 h4 h5]
    simp [resolved, slots, h1, h2, h3, h4, h5, e1, e2, e3, e4, List.findIdx_cons]
  rw [init_success r st h1 h2 h3 h4 h5]
  refine ⟨by simp [resolved, h1, h2, h3, h4, h5], ?_, ?_⟩
  · intro _
    refine ⟨by simp [hijack], by simp [hijack, slots, resolved],
      by simp [hijack, resolved, all_handlers], ?_, ?_⟩
    · intro a ha
      simp only [resolved, List.mem_cons, List.mem_singleton, List.not_mem_nil,
        or_false] at ha
      apply redirected_hijack
      by_cases e5 : a = r.kallsyms_lookup_name "sys_bind"
      · exact Or.inl e5
      right
      apply redirected_hijack
      by_cases e4 : a = get_udp_seq_show r "/proc/net/udp6"
      · exact Or.inl e4
      right
      apply redirected_hijack
      by_cases e3 : a = get_udp_seq_show r "/proc/net/udp"
      · exact Or.inl e3
      right
      apply redirected_hijack
      by_cases e2 : a = get_tcp_seq_show r "/proc/net/tcp6"
      · exact Or.inl e2
      right
      apply redirected_hijack
      left
      rcases ha with e | e | e | e | e
      · exact e
      · exact absurd e e2
      · exact absurd e e3
      · exact absurd e e4
      · exact absurd e e5
    intro hnd h
    simp only [resolved, List.nodup_cons, List.mem_cons, List.mem_singleton, not_or,
      List.not_mem_nil, not_false_eq_true, List.nodup_nil, and_true] at hnd
    obtain ⟨⟨n12, n13, n14, n15⟩, ⟨n23, n24, n25⟩, ⟨n34, n35⟩, n45⟩ := hnd
    cases h <;>
      simp [hijack, slot_of, n12, n13, n14, n15, n23, n24, n25, n34, n35, n45,
        Ne.symm n12, Ne.symm n13, Ne.symm n14, Ne.symm n15, Ne.symm n23, Ne.symm n24,
        Ne.symm n25, Ne.symm n34, Ne.symm n35, Ne.symm n45]
  · rintro ⟨a, ha, ha0⟩
    exfalso
    simp only [resolved, List.mem_cons, List.mem_singleton, List.not_mem_nil, or_false] at ha
    rcases ha with rfl | rfl | rfl | rfl | rfl
    · exact h1 ha0
    · exact h2 ha0
    · exact h3 ha0
    · exact h4 ha0
    · exact h5 ha0

/-- C12 (counterexample): there are no resolution outcomes and no state in which
`sockethider_init` returns failure after having installed an interceptor: no `hijack`
call is among the calls a failing init makes. -/
theorem init_failure_installs_nothing :
    ¬ ∃ (r : Resolver) (st : State) (f : Nat) (h : Handler),
      (sockethider_init r st).2 = -1 ∧
      Event.hijack f h ∈ (sockethider_init r st).1.trace.drop st.trace.length ∧
      (f, h) ∈ (sockethider_init r st).1.hijacked := by
  rintro ⟨r, st, f, h, hret, hev, _⟩
  have hne : (sockethider_init r st).2 ≠ 0 := by rw [hret]; decide
  rw [(init_failure_frame r st hne).2.1] at hev
  simp at hev

/-- C12 (amended): a failing `sockethider_init` never installs an interceptor (its
trace and the redirections are as before the call), but it can leave slots populated:
with `/proc/net/tcp` resolved and `/proc/net/tcp6` not, init returns -1 with the tcp4
slot, null before, holding the resolved address and the tcp6 slot null. -/
theorem init_failure_keeps_slots :
    (∀ (r : Resolver) (st : State), (sockethider_init r st).2 ≠ 0 →
      (sockethider_init r st).1.trace = st.trace ∧
      (sockethider_init r st).1.hijacked = st.hijacked) ∧
    ∃ (r : Resolver) (st : State),
      (sockethider_init r st).2 = -1 ∧ st.tcp4_seq_show = 0 ∧
      (sockethider_init r st).1.tcp4_seq_show ≠ 0 ∧
      (sockethider_init r st).1.tcp6_seq_show = 0 := by
  refine ⟨fun r st h => (init_failure_frame r st h).2, resolver_tcp6_missing, state_boot, ?_⟩
  decide

theorem clear_loop_snd (l : List _socket_list) :
    (clear_loop l).2 = l.map (fun e => Event.list_del e.port e.type) := by
  induction l with
  | nil => rfl
  | cons e rest ih => simp [clear_loop, ih]

theorem cleanup_fields (st : State) :
    (sockethider_cleanup st).trace =
      st.trace ++ ((slots st).filter (fun a => a ≠ 0)).map Event.unhijack ++
        st.socket_list.map (fun e => Event.list_del e.port e.type) ∧
    (sockethider_cleanup st).socket_list = [] ∧
    slots (sockethider_cleanup st) = slots st ∧
    (sockethider_cleanup st).hijacked =
      st.hijacked.filter (fun p => decide (p.1 ∉ (slots st).filter (fun a => a ≠ 0))) := by
  refine ⟨?_, ?_, ?_, ?_⟩
  · simp only [sockethider_cleanup, clear_socket_list, clear_loop_snd, slots]
    by_cases h1 : st.tcp4_seq_show = 0 <;> by_cases h2 : st.tcp6_seq_show = 0 <;>
      by_cases h3 : st.udp4_seq_show = 0 <;> by_cases h4 : st.udp6_seq_show = 0 <;>
      by_cases h5 : st.sys_bind = 0 <;>
      simp [h1, h2, h3, h4, h5, unhijack, List.filter_cons]
  · simp [sockethider_cleanup, clear_socket_list, clear_loop_fst]
  · simp only [sockethider_cleanup, clear_socket_list, slots]
    by_cases h1 : st.tcp4_seq_show = 0 <;> by_cases h2 : st.tcp6_seq_show = 0 <;>
      by_cases h3 : st.udp4_seq_show = 0 <;> by_cases h4 : st.udp6_seq_show = 0 <;>
      by_cases h5 : st.sys_bind = 0 <;>
      simp [h1, h2, h3, h4, h5, unhijack]
  · simp only [sockethider_cleanup, clear_socket_list, slots]
    by_cases h1 : st.tcp4_seq_show = 0 <;> by_cases h2 : st.tcp6_seq_show = 0 <;>
      by_cases h3 : st.udp4_seq_show = 0 <;> by_cases h4 : st.udp6_seq_show = 0 <;>
      by_cases h5 : st.sys_bind = 0 <;>
      simp [h1, h2, h3, h4, h5, unhijack, List.filter_cons, List.filter_filter]
    all_goals
      apply List.filter_congr
      intro p _
      rw [Bool.eq_iff_iff]
      simp only [Bool.and_eq_true, bne_iff_ne, ne_eq, Bool.not_eq_true', decide_eq_false_iff_not]
    all_goals try tauto

/-- C13 (counterexample): after an init that resolved only the tcp4 callback, the
slots are 1000 and four nulls, and `sockethider_cleanup` attempts exactly one removal,
that of the tcp4 interceptor; nothing is attempted for the four slots never populated. -/
theorem cleanup_skips_null_slots :
    slots (sockethider_init resolver_tcp6_missing state_boot).1 = [1000, 0, 0, 0, 0] ∧
    (sockethider_cleanup (sockethider_init resolver_tcp6_missing state_boot).1).trace.filter
      is_unhijack = [Event.unhijack 1000] := by
  decide

/-- C13 (amended): `sockethider_cleanup` attempts the removal of exactly the
interceptors whose slot is non-null, in slot order, then deletes every registry node;
after it returns the registry is empty, the slots are as before, the redirections left
are those not sitting at a non-null slot address, and none of the five interceptors is
installed if every redirection present before sat at a non-null slot address. -/
theorem cleanup_result (st : State) :
    (sockethider_cleanup st).trace =
      st.trace ++ ((slots st).filter (fun a => a ≠ 0)).map Event.unhijack ++
        st.socket_list.map (fun e => Event.list_del e.port e.type) ∧
    (sockethider_cleanup st).socket_list = [] ∧
    slots (sockethider_cleanup st) = slots st ∧
    (sockethider_cleanup st).hijacked =
      st.hijacked.filter (fun p => decide (p.1 ∉ (slots st).filter (fun a => a ≠ 0))) ∧
    ((∀ p ∈ st.hijacked, p.1 ≠ 0 ∧ p.1 ∈ slots st) →
      ∀ h, ¬ installed (sockethider_cleanup st) h) := by
  obtain ⟨h1, h2, h3, h4⟩ := cleanup_fields st
  refine ⟨h1, h2, h3, h4, ?_⟩
  rintro hall h ⟨f, hf⟩
  rw [h4, List.mem_filter] at hf
  obtain ⟨hmem, hnot⟩ := hf
  have := hall (f, h) hmem
  simp only [decide_eq_true_eq, List.mem_filter, not_and] at hnot
  exact hnot this.2 (by simpa using this.1)

theorem remove_loop_fst (port : Int) (ty : socket_type) (l : List _socket_list) :
    (remove_loop port ty l).1 =
      l.filter (fun e => !(decide (e.port = port) && decide (e.port = ty.code))) := by
  induction l with
  | nil => rfl
  | cons e rest ih =>
    by_cases h : port = e.port ∧ ty.code = e.port
    · have hb : (!(decide (e.port = port) && decide (e.port = ty.code))) = false := by
        rw [decide_eq_true h.1.symm, decide_eq_true h.2.symm]; rfl
      simp only [remove_loop, if_pos h, ih]
      rw [List.filter_cons, hb]
      rfl
    · have hb : (!(decide (e.port = port) && decide (e.port = ty.code))) = true := by
        by_cases h1 : e.port = port
        · by_cases h2 : e.port = ty.code
          · exact absurd ⟨h1.symm, h2.symm⟩ h
          · rw [decide_eq_true h1, decide_eq_false h2]; rfl
        · rw [decide_eq_false h1]; rfl
      simp only [remove_loop, if_neg h, ih]
      rw [List.filter_cons, hb]
      rfl

/-- C14: `remove_from_socket_list(port, protocol)` deletes exactly the entries whose
port equals the port argument and also equals the numeric value of the protocol
argument, keeping all others in their order; the outcome does not depend on the
entries' protocol fields (replacing them by any `g` of them commutes with the call);
hence for a port different from the numeric value of the protocol the registry is
unchanged. -/
theorem remove_compares_port (port : Int) (ty : socket_type) (st : State) :
    (remove_from_socket_list port ty st).socket_list =
      st.socket_list.filter
        (fun e => !(decide (e.port = port) && decide (e.port = ty.code))) ∧
    (∀ g : socket_type → socket_type,
      (remove_from_socket_list port ty
        { st with socket_list := st.socket_list.map (retype g) }).socket_list =
        (remove_from_socket_list port ty st).socket_list.map (retype g)) ∧
    (port ≠ ty.code → (remove_from_socket_list port ty st).socket_list = st.socket_list) := by
  refine ⟨?_, ?_, ?_⟩
  · simp [remove_from_socket_list, remove_loop_fst]
  · intro g
    simp only [remove_from_socket_list, remove_loop_fst, List.filter_map]
    congr 1
  · intro hne
    simp only [remove_from_socket_list, remove_loop_fst]
    apply List.filter_eq_self.mpr
    intro e _
    by_cases h1 : e.port = port
    · have : ¬ e.port = ty.code := fun hc => hne (h1.symm.trans hc)
      simp [h1, this]
      exact fun hc => hne hc
    · simp [h1]

/-- C18: for a hidden caller whose descriptor does not resolve to a socket, `thor_bind`
leaves the registry unchanged whatever the address holds, calls the original bind once
with the unchanged arguments and returns its value. -/
theorem bind_lookup_failure (k : Kernel) (st : State) (fd : Int) (sa : sockaddr)
    (addrlen : Int)
    (hh : k.is_pid_hidden k.current_pid = true)
    (hs : k.sockfd_lookup fd = none) :
    (thor_bind k st fd sa addrlen).1.socket_list = st.socket_list ∧
    (thor_bind k st fd sa addrlen).1.trace = st.trace ++
      [Event.unhijack st.sys_bind, Event.sys_bind fd sa addrlen,
        Event.hijack st.sys_bind Handler.thor_bind] ∧
    (thor_bind k st fd sa addrlen).2 = k.sys_bind fd sa addrlen := by
  obtain ⟨h1, h2, h3⟩ := thor_bind_eq k st fd sa addrlen
  have hst : thor_bind_hide k st fd sa = st := by
    simp [thor_bind_hide, hh, hs]
  rw [h2, h3, hst]
  exact ⟨rfl, rfl, h1⟩

/-- Witness of C18: a hidden caller binds descriptor 4, which is not a socket; the
registry keeps its single entry and the original's value 0 is returned. -/
theorem bind_lookup_failure_witness :
    (kernel_with true SOCK_STREAM).is_pid_hidden (kernel_with true SOCK_STREAM).current_pid
      = true ∧
    (kernel_with true SOCK_STREAM).sockfd_lookup 4 = none ∧
    (thor_bind (kernel_with true SOCK_STREAM) (state_with [⟨53, socket_type.udp4⟩]) 4
      { sa_family := 2, port_b0 := 17, port_b1 := 92 } 16).1.socket_list =
        [⟨53, socket_type.udp4⟩] ∧
    (thor_bind (kernel_with true SOCK_STREAM) (state_with [⟨53, socket_type.udp4⟩]) 4
      { sa_family := 2, port_b0 := 17, port_b1 := 92 } 16).2 = 0 :=
  ⟨by decide, by decide,
    (bind_lookup_failure (kernel_with true SOCK_STREAM) (state_with [⟨53, socket_type.udp4⟩]) 4
      { sa_family := 2, port_b0 := 17, port_b1 := 92 } 16 (by decide) (by decide)).1,
    by decide⟩

theorem hooks_step (r : Resolver) (st st' : State) (hinv : hooks_at_slots r st)
    (hslot : ∀ h, slot_of st' h = slot_of st h ∨ slot_of st' h = addr_of r h)
    (hmem : ∀ p ∈ st'.hijacked, p ∈ st.hijacked ∨
      (p.1 ≠ 0 ∧ slot_of st' p.2 = p.1 ∧ addr_of r p.2 = p.1)) :
    hooks_at_slots r st' := by
  intro p hp
  rcases hmem p hp with hold | hnew
  · obtain ⟨h0, h1, h2⟩ := hinv p hold
    refine ⟨h0, ?_, h2⟩
    rcases hslot p.2 with e | e
    · rw [e, h1]
    · rw [e, h2]
  · exact hnew

theorem slot_of_hijack (f : Nat) (h : Handler) (st : State) (h' : Handler) :
    slot_of (hijack f h st) h' = slot_of st h' := by
  cases h' <;> rfl

theorem slot_of_unhijack (f : Nat) (st : State) (h' : Handler) :
    slot_of (unhijack f st) h' = slot_of st h' := by
  cases h' <;> rfl

theorem hooks_hijack (r : Resolver) (st : State) (f : Nat) (h : Handler)
    (hinv : hooks_at_slots r st) (hf : f ≠ 0) (hs : slot_of st h = f)
    (ha : addr_of r h = f) : hooks_at_slots r (hijack f h st) := by
  apply hooks_step r st _ hinv
  · intro h'; exact Or.inl (slot_of_hijack f h st h')
  · intro p hp
    simp only [hijack, List.mem_cons, List.mem_filter] at hp
    rcases hp with rfl | hp
    · exact Or.inr ⟨hf, by rw [slot_of_hijack]; exact hs, ha⟩
    · exact Or.inl hp.1

theorem hooks_unhijack (r : Resolver) (st : State) (f : Nat)
    (hinv : hooks_at_slots r st) : hooks_at_slots r (unhijack f st) := by
  apply hooks_step r st _ hinv
  · intro h'; exact Or.inl (slot_of_unhijack f st h')
  · intro p hp
    simp only [unhijack, List.mem_filter] at hp
    exact Or.inl hp.1

theorem hooks_init (r : Resolver) (st : State) (hinv : hooks_at_slots r st) :
    hooks_at_slots r (sockethider_init r st).1 := by
  by_cases h1 : get_tcp_seq_show r "/proc/net/tcp" = 0
  · rw [init_fail_tcp4 r st h1]
    apply hooks_step r st _ hinv
    · intro h; cases h <;> simp [slot_of, addr_of, h1]
    · intro p hp; exact Or.inl hp
  by_cases h2 : get_tcp_seq_show r "/proc/net/tcp6" = 0
  · rw [init_fail_tcp6 r st h1 h2]
    apply hooks_step r st _ hinv
    · intro h; cases h <;> simp [slot_of, addr_of, h2]
    · intro p hp; exact Or.inl hp
  by_cases h3 : get_udp_seq_show r "/proc/net/udp" = 0
  · rw [init_fail_udp4 r st h1 h2 h3]
    apply hooks_step r st _ hinv
    · intro h; cases h <;> simp [slot_of, addr_of, h3]
    · intro p hp; exact Or.inl hp
  by_cases h4 : get_udp_seq_show r "/proc/net/udp6" = 0
  · rw [init_fail_udp6 r st h1 h2 h3 h4]
    apply hooks_step r st _ hinv
    · intro h; cases h <;> simp [slot_of, addr_of, h4]
    · intro p hp; exact Or.inl hp
  by_cases h5 : r.kallsyms_lookup_name "sys_bind" = 0
  · rw [init_fail_bind r st h1 h2 h3 h4 h5]
    apply hooks_step r st _ hinv
    · intro h; cases h <;> simp [slot_of, addr_of, h5]
    · intro p hp; exact Or.inl hp
  rw [init_success r st h1 h2 h3 h4 h5]
  have hbase : hooks_at_slots r
      { st with socket_list := [],
                tcp4_seq_show := get_tcp_seq_show r "/proc/net/tcp",
                tcp6_seq_show := get_tcp_seq_show r "/proc/net/tcp6",
                udp4_seq_show := get_udp_seq_show r "/proc/net/udp",
                udp6_seq_show := get_udp_seq_show r "/proc/net/udp6",
                sys_bind := r.kallsyms_lookup_name "sys_bind" } := by
    apply hooks_step r st _ hinv
    · intro h; cases h <;> simp [slot_of, addr_of]
    · intro p hp; exact Or.inl hp
  refine hooks_hijack r _ _ _ (hooks_hijack r _ _ _ (hooks_hijack r _ _ _
    (hooks_hijack r _ _ _ (hooks_hijack r _ _ _ hbase h1 rfl rfl) h2 rfl rfl) h3 rfl rfl)
    h4 rfl rfl) h5 rfl rfl

theorem hooks_cleanup (r : Resolver) (st : State) (hinv : hooks_at_slots r st) :
    hooks_at_slots r (sockethider_cleanup st) := by
  apply hooks_step r st _ hinv
  · intro h
    left
    have := (cleanup_fields st).2.2.1
    simp only [slots, List.cons.injEq, and_true] at this
    obtain ⟨e1, e2, e3, e4, e5⟩ := this
    cases h <;> simp [slot_of, e1, e2, e3, e4, e5]
  · intro p hp
    rw [(cleanup_fields st).2.2.2, List.mem_filter] at hp
    exact Or.inl hp.1


theorem interceptor_state (ty : socket_type) (orig : seq_file → Nat → seq_file × Int)
    (st : State) (seq : seq_file) (v : Nat) (st' : State) (seq' : seq_file) (ret : Int)
    (h : interceptor ty orig st seq v = some (st', seq', ret)) :
    (∀ h', slot_of st' h' = slot_of st h') ∧
    (∀ p ∈ st'.hijacked,
      p = (slot_of st (handler_of ty), handler_of ty) ∨ p ∈ st.hijacked) ∧
    (slot_of st (handler_of ty), handler_of ty) ∈ st'.hijacked := by
  cases ty
  · simp only [interceptor, thor_tcp4_seq_show] at h
    split at h
    · exact absurd h (by simp)
    · simp only [Option.some.injEq, Prod.mk.injEq] at h
      obtain ⟨rfl, _, _⟩ := h
      refine ⟨fun h' => by cases h' <;> rfl, ?_, by simp [hijack, unhijack, slot_of, handler_of]⟩
      intro p hp
      simp only [hijack, unhijack, List.mem_cons, List.mem_filter] at hp
      rcases hp with rfl | hp
      · exact Or.inl rfl
      · exact Or.inr hp.1.1
  · simp only [interceptor, thor_tcp6_seq_show] at h
    split at h
    · exact absurd h (by simp)
    · simp only [Option.some.injEq, Prod.mk.injEq] at h
      obtain ⟨rfl, _, _⟩ := h
      refine ⟨fun h' => by cases h' <;> rfl, ?_, by simp [hijack, unhijack, slot_of, handler_of]⟩
      intro p hp
      simp only [hijack, unhijack, List.mem_cons, List.mem_filter] at hp
      rcases hp with rfl | hp
      · exact Or.inl rfl
      · exact Or.inr hp.1.1
  · simp only [interceptor, thor_udp4_seq_show] at h
    split at h
    · exact absurd h (by simp)
    · simp only [Option.some.injEq, Prod.mk.injEq] at h
      obtain ⟨rfl, _, _⟩ := h
      refine ⟨fun h' => by cases h' <;> rfl, ?_, by simp [hijack, unhijack, slot_of, handler_of]⟩
      intro p hp
      simp only [hijack, unhijack, List.mem_cons, List.mem_filter] at hp
      rcases hp with rfl | hp
      · exact Or.inl rfl
      · exact Or.inr hp.1.1
  · simp only [interceptor, thor_udp6_seq_show] at h
    split at h
    · exact absurd h (by simp)
    · simp only [Option.some.injEq, Prod.mk.injEq] at h
      obtain ⟨rfl, _, _⟩ := h
      refine ⟨fun h' => by cases h' <;> rfl, ?_, by simp [hijack, unhijack, slot_of, handler_of]⟩
      intro p hp
      simp only [hijack, unhijack, List.mem_cons, List.mem_filter] at hp
      rcases hp with rfl | hp
      · exact Or.inl rfl
      · exact Or.inr hp.1.1

theorem thor_bind_state (k : Kernel) (st : State) (fd : Int) (sa : sockaddr) (addrlen : Int) :
    (∀ h', slot_of (thor_bind k st fd sa addrlen).1 h' = slot_of st h') ∧
    (∀ p ∈ (thor_bind k st fd sa addrlen).1.hijacked,
      p = (st.sys_bind, Handler.thor_bind) ∨ p ∈ st.hijacked) := by
  have hs : ∀ h', slot_of (thor_bind_hide k st fd sa) h' = slot_of st h' := by
    intro h'
    unfold thor_bind_hide
    repeat' split
    all_goals cases h' <;> rfl
  have hh : (thor_bind_hide k st fd sa).hijacked = st.hijacked := by
    unfold thor_bind_hide
    repeat' split
    all_goals rfl
  refine ⟨?_, ?_⟩
  · intro h'
    rw [← hs h']
    cases h' <;> rfl
  · intro p hp
    simp only [thor_bind, hijack, unhijack, List.mem_cons, List.mem_filter, hh,
      thor_bind_hide_sys_bind] at hp
    rcases hp with rfl | hp
    · exact Or.inl rfl
    · exact Or.inr hp.1.1

theorem reachable_hooks (r : Resolver) (st : State) (hr : Reachable r st) :
    hooks_at_slots r st := by
  induction hr with
  | boot => intro p hp; simp [state_boot] at hp
  | init st _ ih => exact hooks_init r st ih
  | cleanup st _ ih => exact hooks_cleanup r st ih
  | seq_show ty orig st seq v st' seq' ret _ hinst hcall ih =>
    obtain ⟨hslot, hmem, _⟩ := interceptor_state ty orig st seq v st' seq' ret hcall
    obtain ⟨f, hf⟩ := hinst
    obtain ⟨f0, fs, fa⟩ := ih (f, handler_of ty) hf
    apply hooks_step r st st' ih
    · intro h'; exact Or.inl (hslot h')
    · intro p hp
      rcases hmem p hp with rfl | hold
      · right
        simp only at f0 fs fa ⊢
        rw [hslot, fs]
        exact ⟨f0, rfl, fa⟩
      · exact Or.inl hold
  | bind k st fd sa addrlen _ hinst ih =>
    obtain ⟨hslot, hmem⟩ := thor_bind_state k st fd sa addrlen
    obtain ⟨f, hf⟩ := hinst
    obtain ⟨f0, fs, fa⟩ := ih (f, Handler.thor_bind) hf
    apply hooks_step r st _ ih
    · intro h'; exact Or.inl (hslot h')
    · intro p hp
      rcases hmem p hp with rfl | hold
      · right
        simp only [slot_of] at f0 fs fa ⊢
        rw [show (thor_bind k st fd sa addrlen).1.sys_bind = st.sys_bind from
          hslot Handler.thor_bind, fs]
        exact ⟨f0, rfl, fa⟩
      · exact Or.inl hold

/-- C15 (counterexample): two reachable states in which slots are non-null although no
interceptor is installed: after a successful init followed by cleanup all five slots
still hold their addresses, and after an init failing at `/proc/net/tcp6` the tcp4 slot
holds 1000. -/
theorem slots_not_reset :
    Reachable resolver_ok (sockethider_cleanup (sockethider_init resolver_ok state_boot).1) ∧
    slots (sockethider_cleanup (sockethider_init resolver_ok state_boot).1) =
      [1000, 2000, 3000, 4000, 5000] ∧
    (∀ h, ¬ installed (sockethider_cleanup (sockethider_init resolver_ok state_boot).1) h) ∧
    Reachable resolver_tcp6_missing (sockethider_init resolver_tcp6_missing state_boot).1 ∧
    (sockethider_init resolver_tcp6_missing state_boot).2 = -1 ∧
    slots (sockethider_init resolver_tcp6_missing state_boot).1 = [1000, 0, 0, 0, 0] ∧
    (∀ h, ¬ installed (sockethider_init resolver_tcp6_missing state_boot).1 h) := by
  have e1 : (sockethider_cleanup (sockethider_init resolver_ok state_boot).1).hijacked = [] := by
    decide
  have e2 : (sockethider_init resolver_tcp6_missing state_boot).1.hijacked = [] := by
    decide
  refine ⟨Reachable.cleanup _ (Reachable.init _ Reachable.boot), by decide, ?_,
    Reachable.init _ Reachable.boot, by decide, by decide, ?_⟩
  · rintro h ⟨f, hf⟩
    rw [e1] at hf
    simp at hf
  · rintro h ⟨f, hf⟩
    rw [e2] at hf
    simp at hf

/-- C15 (amended): in every state reachable by `sockethider_init` (with the same
resolution results each time), `sockethider_cleanup` and interceptor invocations, an
interceptor that is installed has a non-null slot and is redirected from the address in
that slot. -/
theorem installed_slot_nonnull (r : Resolver) (st : State) (hr : Reachable r st)
    (h : Handler) (hi : installed st h) :
    slot_of st h ≠ 0 ∧ (slot_of st h, h) ∈ st.hijacked := by
  obtain ⟨f, hf⟩ := hi
  obtain ⟨f0, fs, _⟩ := reachable_hooks r st hr (f, h) hf
  simp only at f0 fs
  rw [fs]
  exact ⟨f0, hf⟩

/-- Witness of C15 (amended): the state after a successful init, interceptor
`thor_tcp4_seq_show`. -/
theorem installed_slot_nonnull_witness :
    Reachable resolver_ok (sockethider_init resolver_ok state_boot).1 ∧
    installed (sockethider_init resolver_ok state_boot).1 Handler.thor_tcp4_seq_show ∧
    slot_of (sockethider_init resolver_ok state_boot).1 Handler.thor_tcp4_seq_show ≠ 0 ∧
    (slot_of (sockethider_init resolver_ok state_boot).1 Handler.thor_tcp4_seq_show,
      Handler.thor_tcp4_seq_show) ∈ (sockethider_init resolver_ok state_boot).1.hijacked :=
  ⟨Reachable.init _ Reachable.boot, ⟨1000, by decide⟩,
    installed_slot_nonnull resolver_ok (sockethider_init resolver_ok state_boot).1
      (Reachable.init _ Reachable.boot) Handler.thor_tcp4_seq_show ⟨1000, by decide⟩⟩

/-! # Order and frame of the enumeration interceptors -/

theorem hide_port_short (ty : socket_type) (width : Nat) (seq : seq_file)
    (h : ¬ width ≤ seq.count) (reg : List _socket_list) :
    hide_port ty width reg seq =
      if reg.any (fun e => decide (e.type = ty)) then none else some seq := by
  induction reg with
  | nil => simp [hide_port]
  | cons e rest ih =>
    unfold hide_port
    by_cases hty : e.type = ty
    · simp [hty, window, h]
    · simp [hty, ih]

theorem hide_port_perm (ty : socket_type) (width : Nat) (seq : seq_file)
    (reg1 reg2 : List _socket_list) (hp : reg1.Perm reg2) :
    hide_port ty width reg1 seq = hide_port ty width reg2 seq := by
  by_cases h : width ≤ seq.count
  · rw [hide_port_spec ty width seq h, hide_port_spec ty width seq h]
    have : marked ty reg1 (last_bytes width seq) = marked ty reg2 (last_bytes width seq) := by
      rw [Bool.eq_iff_iff, marked_iff, marked_iff]
      constructor
      · rintro ⟨e, he, h1⟩; exact ⟨e, hp.mem_iff.mp he, h1⟩
      · rintro ⟨e, he, h1⟩; exact ⟨e, hp.mem_iff.mpr he, h1⟩
    rw [this]
  · rw [hide_port_short ty width seq h, hide_port_short ty width seq h]
    have : reg1.any (fun e => decide (e.type = ty)) =
        reg2.any (fun e => decide (e.type = ty)) := by
      rw [Bool.eq_iff_iff, List.any_eq_true, List.any_eq_true]
      constructor
      · rintro ⟨e, he, h1⟩; exact ⟨e, hp.mem_iff.mp he, h1⟩
      · rintro ⟨e, he, h1⟩; exact ⟨e, hp.mem_iff.mpr he, h1⟩
    rw [this]

/-- C16: for two registries that are permutations of each other, every buffer and each
of the four interceptors, the outcome of the call is the same: the same buffer with the
same count and the same return value (and the call is undefined for the one exactly when
it is for the other). -/
theorem registry_order_irrelevant (ty : socket_type)
    (orig : seq_file → Nat → seq_file × Int) (st1 st2 : State) (seq : seq_file) (v : Nat)
    (hp : st1.socket_list.Perm st2.socket_list) :
    (interceptor ty orig st1 seq v).map (fun x => x.2) =
      (interceptor ty orig st2 seq v).map (fun x => x.2) := by
  obtain ⟨s1, _, e1⟩ := interceptor_unfold ty orig st1 seq v
  obtain ⟨s2, _, e2⟩ := interceptor_unfold ty orig st2 seq v
  rw [e1, e2, hide_port_perm ty (width_of ty) _ _ _ hp]
  simp [Option.map_map, Function.comp_def]

set_option maxRecDepth 100000 in
/-- Witness of C16: the entries (4444, tcp4) and (22, tcp4) in both orders, on a tcp4
line carrying `:115C`. -/
theorem registry_order_irrelevant_witness :
    (state_with [⟨4444, socket_type.tcp4⟩, ⟨22, socket_type.tcp4⟩]).socket_list.Perm
      (state_with [⟨22, socket_type.tcp4⟩, ⟨4444, socket_type.tcp4⟩]).socket_list ∧
    (interceptor socket_type.tcp4 (fun s _ => (seq_append tcp4_line s, 0))
      (state_with [⟨4444, socket_type.tcp4⟩, ⟨22, socket_type.tcp4⟩]) (seq_zero 300) 0).map
        (fun x => x.2) =
    (interceptor socket_type.tcp4 (fun s _ => (seq_append tcp4_line s, 0))
      (state_with [⟨22, socket_type.tcp4⟩, ⟨4444, socket_type.tcp4⟩]) (seq_zero 300) 0).map
        (fun x => x.2) :=
  ⟨List.Perm.swap _ _ _,
    registry_order_irrelevant socket_type.tcp4 (fun s _ => (seq_append tcp4_line s, 0))
      (state_with [⟨4444, socket_type.tcp4⟩, ⟨22, socket_type.tcp4⟩])
      (state_with [⟨22, socket_type.tcp4⟩, ⟨4444, socket_type.tcp4⟩]) (seq_zero 300) 0
      (List.Perm.swap _ _ _)⟩

set_option maxRecDepth 100000 in
/-- C17 (counterexample): after the original has written the 145-byte header of
`/proc/net/tcp6` into an empty buffer, with (4444, tcp6) registered, the tcp6
interceptor searches 176 bytes from `buf + 145 - 176`, that is from 31 bytes before the
buffer: the call has no defined outcome. -/
theorem short_buffer_undefined :
    (seq_append tcp6_header (seq_zero 300)).count = 145 ∧
    width_of socket_type.tcp6 = 176 ∧
    interceptor socket_type.tcp6 (fun s _ => (seq_append tcp6_header s, 0))
      (state_with [⟨4444, socket_type.tcp6⟩]) (seq_zero 300) 0 = none := by
  decide

/-- C17 (amended): for each of the four interceptors, when the count the original left
is at least the protocol's width, or no entry of the interceptor's protocol is
registered, the call returns the original's value with the registry unchanged, the
buffer bytes exactly those the original left, and the count either the one the original
left or that count minus the width. -/
theorem interceptor_frame (ty : socket_type) (orig : seq_file → Nat → seq_file × Int)
    (st : State) (seq : seq_file) (v : Nat)
    (h : width_of ty ≤ (orig seq v).1.count ∨ ∀ e ∈ st.socket_list, e.type ≠ ty) :
    ∃ st' seq', interceptor ty orig st seq v = some (st', seq', (orig seq v).2) ∧
      st'.socket_list = st.socket_list ∧
      seq'.buf = (orig seq v).1.buf ∧
      (seq'.count = (orig seq v).1.count ∨
        seq'.count = (orig seq v).1.count - width_of ty) := by
  obtain ⟨st', hreg, hst'⟩ := interceptor_unfold ty orig st seq v
  by_cases hc : width_of ty ≤ (orig seq v).1.count
  · rw [hide_port_spec ty (width_of ty) _ hc] at hst'
    cases hm : marked ty st.socket_list (last_bytes (width_of ty) (orig seq v).1) with
    | false =>
      rw [hm] at hst'
      exact ⟨st', _, hst', hreg, rfl, Or.inl rfl⟩
    | true =>
      rw [hm] at hst'
      exact ⟨st', _, hst', hreg, rfl, Or.inr rfl⟩
  · have hno : ∀ e ∈ st.socket_list, e.type ≠ ty := h.resolve_left hc
    have hany : st.socket_list.any (fun e => decide (e.type = ty)) = false := by
      rw [Bool.eq_false_iff]
      intro hc2
      rw [List.any_eq_true] at hc2
      obtain ⟨e, he, h1⟩ := hc2
      exact hno e he (by simpa using h1)
    rw [hide_port_short ty (width_of ty) _ hc, hany] at hst'
    exact ⟨st', _, hst', hreg, rfl, Or.inl rfl⟩

set_option maxRecDepth 100000 in
/-- Witness of C17 (amended): a 150-byte tcp4 line with (4444, tcp4) registered. -/
theorem interceptor_frame_witness :
    (width_of socket_type.tcp4 ≤ (seq_append tcp4_line (seq_zero 300)).count ∨
      ∀ e ∈ (state_with [⟨4444, socket_type.tcp4⟩]).socket_list, e.type ≠ socket_type.tcp4) ∧
    ∃ st' seq', interceptor socket_type.tcp4 (fun s _ => (seq_append tcp4_line s, 0))
        (state_with [⟨4444, socket_type.tcp4⟩]) (seq_zero 300) 0 = some (st', seq', 0) ∧
      st'.socket_list = (state_with [⟨4444, socket_type.tcp4⟩]).socket_list ∧
      seq'.buf = (seq_append tcp4_line (seq_zero 300)).buf ∧
      (seq'.count = (seq_append tcp4_line (seq_zero 300)).count ∨
        seq'.count = (seq_append tcp4_line (seq_zero 300)).count - width_of socket_type.tcp4) :=
  ⟨Or.inl (by decide),
    interceptor_frame socket_type.tcp4 (fun s _ => (seq_append tcp4_line s, 0))
      (state_with [⟨4444, socket_type.tcp4⟩]) (seq_zero 300) 0 (Or.inl (by decide))⟩

end Thor
